import Mathlib

/-!
Shallow embedding of the image buffer marshaling layer of CV-CUDA's python
binding (`src/python/mod_nvcv/Image.cpp`): buffer-layout normalization,
image-format inference and validation, canonical image assembly, buffer
export, the cache identity key and external-buffer wrapping.

Machine integers (`ssize_t`, `int`, `int64_t`) are modelled as `Int`/`Nat`;
the quantities involved (extents, strides, bit counts) never approach the
64-bit overflow boundary in any statement below, so no modular reduction is
applied.  Fallible C++ code (functions that `throw std::invalid_argument` /
`std::runtime_error`) is modelled with `Except String`.

The NVCV core types (`nvcv::DataType`, `nvcv::Packing`, `nvcv::ImageFormat`,
`nvcv::TensorShapeInfoImagePlanar`, ...) are declared outside this
repository snapshot; they are modelled here from the specification's data
model (spec §3, §4.1, §6) and their doc comments say so.  All the control
flow under scrutiny (`ExtractBufferImageInfo`, `MakePackedType`,
`InferImageFormat`, `FillNVCVImageBufferStrided`, `ToPyBufferInfo`,
`Image::Key::doIsCompatible`, `Image::setWrapData`) is transcribed from
`Image.cpp` itself.
-/

namespace CVCUDA

/-- Modelled from the spec: data kind of an element type
(`{dataKind (unsigned/signed/float)}`, spec §3). -/
inductive DataKind where
  | unsigned
  | signed
  | float
  | complex
deriving DecidableEq, Repr

/-- Modelled from the spec: one slot of a channel swizzle
("the channel-to-position mapping", spec glossary). -/
inductive Channel where
  | none
  | x
  | y
  | z
  | w
  | one
deriving DecidableEq, Repr

/-- Modelled from the spec: a swizzle is the channel occupying each of the
four slots. -/
structure Swizzle where
  c0 : Channel
  c1 : Channel
  c2 : Channel
  c3 : Channel
deriving DecidableEq, Repr

/-- `MakeSwizzle` of NVCV: bundle four channel slots. -/
def MakeSwizzle (a b c d : Channel) : Swizzle := ⟨a, b, c, d⟩

def S_0000 : Swizzle := MakeSwizzle .none .none .none .none
def S_X000 : Swizzle := MakeSwizzle .x .none .none .none
def S_XY00 : Swizzle := MakeSwizzle .x .y .none .none
def S_XYZ0 : Swizzle := MakeSwizzle .x .y .z .none
def S_XYZ1 : Swizzle := MakeSwizzle .x .y .z .one
def S_XYZW : Swizzle := MakeSwizzle .x .y .z .w

/-- Modelled from the spec: byte order of a packing. -/
inductive ByteOrder where
  | lsb
  | msb
deriving DecidableEq, Repr

/-- Modelled from the spec: a channel packing is described by its parameters
`{bitsPerChannel, channelOrder/swizzle, byteOrder}` (spec §3 element type).
`bits` always has length 4, zero for absent channels.  `subPixel` marks the
two special sub-pixel packings (`X8_Y8__X8_Z8`, `Y8_X8__Z8_X8`) that
`ToPyBufferInfo` treats as two channels per pixel. -/
structure Packing where
  bits : List Nat
  swizzle : Swizzle
  byteOrder : ByteOrder
  subPixel : Bool := false
deriving DecidableEq, Repr

namespace Packing

/-- Number of channels of a packing: channels with a nonzero bit width. -/
def numChannels (p : Packing) : Nat := p.bits.countP (fun b => b ≠ 0)

/-- Total bits of a packing. -/
def totalBits (p : Packing) : Nat := p.bits.sum

def NONE : Packing := ⟨[0, 0, 0, 0], S_0000, .msb, false⟩
def X8 : Packing := ⟨[8, 0, 0, 0], S_X000, .msb, false⟩
def X8_Y8 : Packing := ⟨[8, 8, 0, 0], S_XY00, .msb, false⟩
def X8_Y8_Z8 : Packing := ⟨[8, 8, 8, 0], S_XYZ0, .msb, false⟩
def X8_Y8_Z8_W8 : Packing := ⟨[8, 8, 8, 8], S_XYZW, .msb, false⟩
def X32_Y32 : Packing := ⟨[32, 32, 0, 0], S_XY00, .msb, false⟩
def X8_Y8__X8_Z8 : Packing := ⟨[8, 8, 8, 0], S_XYZ0, .msb, true⟩
def Y8_X8__Z8_X8 : Packing := ⟨[8, 8, 8, 0], S_XYZ0, .msb, true⟩

end Packing

/-- Modelled from the spec: an element type is a data kind plus a packing
(spec §3 `{dataKind, bitsPerChannel, numChannels, channelOrder/swizzle,
byteOrder}`). -/
structure DataType where
  dataKind : DataKind
  packing : Packing
deriving DecidableEq, Repr

namespace DataType

def numChannels (t : DataType) : Nat := t.packing.numChannels

/-- Bytes per element (`nvcv::DataType::strideBytes`): total bits rounded up
to whole bytes. -/
def strideBytes (t : DataType) : Int := ((t.packing.totalBits + 7) / 8 : Nat)

/-- `nvcv::DataType::channelType(0)`: the single-channel type holding just
channel 0 of this type. -/
def channelType0 (t : DataType) : DataType :=
  ⟨t.dataKind, ⟨[t.packing.bits.getD 0 0, 0, 0, 0], S_X000, .msb, false⟩⟩

end DataType

/-- `MakePackedType` (Image.cpp, lines 241-274): repack `dtype` to hold
exactly `numChannels` channels.  When the channel count already matches,
the type is returned unchanged; otherwise the packing parameters are
rewritten: the swizzle becomes the standard mask for 2/3/4 channels (the
C++ `switch` has no other case, so any other count leaves it unchanged),
the byte order is set to MSB, and channels `1 ≤ i < numChannels` get
channel 0's bit width. -/
def MakePackedType (dtype : DataType) (numChannels : Nat) : DataType :=
  if dtype.numChannels = numChannels then
    dtype
  else
    let pp := dtype.packing
    let sw : Swizzle :=
      match numChannels with
      | 2 => S_XY00
      | 3 => S_XYZ0
      | 4 => S_XYZW
      | _ => pp.swizzle
    let bits : List Nat :=
      (List.range 4).map (fun i =>
        if 1 ≤ i ∧ i < numChannels then pp.bits.getD 0 0 else pp.bits.getD i 0)
    ⟨dtype.dataKind, ⟨bits, sw, .msb, pp.subPixel⟩⟩

/-- Modelled from the spec: color model of an image format (spec §3
`{colorModel, ...}`; §4.2 rules mention gray/color, YCbCr and RAW models). -/
inductive ColorModel where
  | undefined
  | rgb
  | ycbcr
  | raw
deriving DecidableEq, Repr

/-- Modelled from the spec: color-interpretation metadata kept by a format
but ignored by data-layout comparison (spec §4.3). -/
inductive ColorSpec where
  | undefined
  | srgb
  | bt601
  | bt601er
deriving DecidableEq, Repr

/-- Modelled from the spec: an image format `{colorModel, channelSwizzle,
perPlanePacking[≤4], dataKind}` (spec §3), together with the
color-interpretation metadata (`colorSpec`, chroma subsampling `css`,
`rawPattern`) the constructors of Image.cpp carry along. `packings` always
has length 4, padded with `Packing.NONE`. -/
structure ImageFormat where
  colorModel : ColorModel
  colorSpec : ColorSpec
  css : Nat × Nat
  dataKind : DataKind
  swizzle : Swizzle
  packings : List Packing
  rawPattern : Nat := 0
deriving DecidableEq, Repr

/-- Pad a per-plane packing list to exactly 4 entries with `Packing.NONE`,
mirroring the C-array `nvcv::Packing packing[4] = {nvcv::Packing::NONE}`. -/
def pad4 (l : List Packing) : List Packing :=
  (l ++ List.replicate 4 Packing.NONE).take 4

namespace ImageFormat

/-- Number of planes: planes with a non-empty packing. -/
def numPlanes (f : ImageFormat) : Nat := f.packings.countP (fun p => p.numChannels ≠ 0)

/-- Total channel count across planes. -/
def numChannels (f : ImageFormat) : Nat := (f.packings.map Packing.numChannels).sum

/-- `nvcv::ImageFormat::planeNumChannels(p)`. -/
def planeNumChannels (f : ImageFormat) (p : Nat) : Nat :=
  (f.packings.getD p Packing.NONE).numChannels

/-- `nvcv::ImageFormat::planePacking(p)`. -/
def planePacking (f : ImageFormat) (p : Nat) : Packing :=
  f.packings.getD p Packing.NONE

/-- `nvcv::ImageFormat::planeDataType(p)`. -/
def planeDataType (f : ImageFormat) (p : Nat) : DataType :=
  ⟨f.dataKind, f.planePacking p⟩

/-- `nvcv::ImageFormat::planePixelStrideBytes(p)`. -/
def planeBPP (f : ImageFormat) (p : Nat) : Int := (f.planeDataType p).strideBytes

/-- Modelled from the spec: `format.planeSize(size, planeIndex)` — plane 0
has the full image size; further planes of a chroma-subsampled (YCbCr)
format are scaled down by the subsampling factors (spec §3 invariant on
Canonical Image, and scenario D's half-resolution chroma plane). -/
def planeSize (f : ImageFormat) (s : Int × Int) (p : Nat) : Int × Int :=
  if p = 0 then s
  else if f.colorModel = .ycbcr then (s.1 / (f.css.1 : Int), s.2 / (f.css.2 : Int))
  else s

end ImageFormat

/-- The "none" image format (`nvcv::FMT_NONE`). -/
def FMT_NONE : ImageFormat :=
  ⟨.undefined, .undefined, (1, 1), .unsigned, S_0000, pad4 [], 0⟩

/-- Modelled from the spec: the single-channel 8-bit base format
(`nvcv::FMT_U8`, "1→single-channel gray", non-color). -/
def FMT_U8 : ImageFormat :=
  ⟨.undefined, .undefined, (1, 1), .unsigned, S_X000, pad4 [Packing.X8], 0⟩

/-- Modelled from the spec: the two-channel float base format
(`nvcv::FMT_2F32`, "2→two-channel"). -/
def FMT_2F32 : ImageFormat :=
  ⟨.undefined, .undefined, (1, 1), .float, S_XY00, pad4 [Packing.X32_Y32], 0⟩

/-- Modelled from the spec: the three-channel color base format
(`nvcv::FMT_RGB8`, "3→three-channel color"). -/
def FMT_RGB8 : ImageFormat :=
  ⟨.rgb, .srgb, (1, 1), .unsigned, S_XYZ1, pad4 [Packing.X8_Y8_Z8], 0⟩

/-- Modelled from the spec: the four-channel color+alpha base format
(`nvcv::FMT_RGBA8`, "4→four-channel color+alpha"). -/
def FMT_RGBA8 : ImageFormat :=
  ⟨.rgb, .srgb, (1, 1), .unsigned, S_XYZW, pad4 [Packing.X8_Y8_Z8_W8], 0⟩

/-- Modelled from the spec: the semi-planar luma/chroma template
(`nvcv::FMT_NV12_ER`): YCbCr, 2×2 chroma subsampling, one full-resolution
single-channel plane and one half-resolution two-channel plane. -/
def FMT_NV12_ER : ImageFormat :=
  ⟨.ycbcr, .bt601er, (2, 2), .unsigned, S_XYZ0, pad4 [Packing.X8, Packing.X8_Y8], 0⟩

/-- Modelled from the spec: `HasSameDataLayout` — "they must describe the
same data layout (channel count, packing per plane, data kind) — a
structural equality ignoring only color-interpretation metadata"
(spec §4.3). -/
def HasSameDataLayout (a b : ImageFormat) : Bool :=
  a.dataKind = b.dataKind ∧ a.packings = b.packings

/-- `InferImageFormat` (Image.cpp, lines 276-350): derive a canonical image
format from the per-plane element types.  Empty input gives `FMT_NONE`;
a data-kind mismatch against plane 0 throws; otherwise the format is built
by the planar/packed, semi-planar, or generic-non-color case analysis. -/
def InferImageFormat (planePixTypes : List DataType) : Except String ImageFormat :=
  match planePixTypes with
  | [] => .ok FMT_NONE
  | t0 :: _ =>
    let packing : List Packing := pad4 (planePixTypes.map DataType.packing)
    let numChannels : Nat := (planePixTypes.map DataType.numChannels).sum
    if planePixTypes.any (fun t => t.dataKind ≠ t0.dataKind) then
      .error "Planes must all have the same data type"
    else
      let dataKind := t0.dataKind
      let numPlanes := planePixTypes.length
      -- Planar or packed?
      if numPlanes = 1 ∨ numChannels = numPlanes then
        let baseFormat := [FMT_U8, FMT_2F32, FMT_RGB8, FMT_RGBA8].getD (numChannels - 1) FMT_U8
        match baseFormat.colorModel with
        | .ycbcr =>
          .ok ⟨.ycbcr, baseFormat.colorSpec, baseFormat.css, dataKind, baseFormat.swizzle,
               packing, 0⟩
        | .undefined =>
          .ok ⟨.undefined, .undefined, (1, 1), dataKind, baseFormat.swizzle, packing, 0⟩
        | .raw =>
          .ok ⟨.raw, .undefined, (1, 1), dataKind, baseFormat.swizzle, packing,
               baseFormat.rawPattern⟩
        | m =>
          .ok ⟨m, baseFormat.colorSpec, (1, 1), dataKind, baseFormat.swizzle, packing, 0⟩
      -- semi-planar, NV12-like?
      else if numPlanes = 2 ∧ numChannels = 3 then
        .ok { FMT_NV12_ER with dataKind := dataKind, swizzle := S_XYZ0, packings := packing }
      -- Or else, we'll consider it as representing a non-color format
      else
        let sw := MakeSwizzle (if numChannels ≥ 1 then .x else .none)
                              (if numChannels ≥ 2 then .y else .none)
                              (if numChannels ≥ 3 then .z else .none)
                              (if numChannels ≥ 4 then .w else .none)
        .ok { FMT_U8 with dataKind := dataKind, swizzle := sw, packings := packing }

/-! ## Buffer ingestion (Buffer Layout Normalizer) -/

/-- Modelled from the spec: the cross-framework element-type descriptor of an
ingested buffer, `elementType:{bits,lanes,kind}` (spec §6). -/
structure DLDataType where
  kind : DataKind
  bits : Nat
  lanes : Nat
deriving DecidableEq, Repr

/-- Modelled from the spec: device locality of an ingested buffer
(`deviceKind, deviceId`, spec §6). -/
structure DLDevice where
  deviceType : Nat
  deviceId : Int
deriving DecidableEq, Repr

/-- Modelled from the spec: an ingested buffer descriptor
`{rank ∈[1,4], shape, strides, elementType, devicePointer, device}`
(spec §6).  Strides are per-axis element counts (the DLPack convention);
the ingestion code multiplies them by the element byte size. -/
structure DLPackTensor where
  ndim : Nat
  shape : List Int
  strides : List Int
  dtype : DLDataType
  data : Int
  device : DLDevice
deriving DecidableEq, Repr

/-- `int elemStrideBytes = (tensor.dtype.bits * tensor.dtype.lanes + 7) / 8`
(Image.cpp, line 98). -/
def DLDataType.elemStrideBytes (t : DLDataType) : Int := ((t.bits * t.lanes + 7) / 8 : Nat)

/-- Standard swizzle covering the first `n` channels. -/
def stdSwizzle (n : Nat) : Swizzle :=
  match n with
  | 0 => S_0000
  | 1 => S_X000
  | 2 => S_XY00
  | 3 => S_XYZ0
  | _ => S_XYZW

/-- Modelled from the spec: `ToNVCVDataType` turns the ingestion descriptor
`{bits, lanes, kind}` into an element type with `lanes` channels of `bits`
bits each, in standard channel order and native (MSB) byte order
(spec §3 and §6: the ingestion descriptor carries no swizzle and no byte
order of its own). -/
def ToNVCVDataType (t : DLDataType) : DataType :=
  ⟨t.kind,
   ⟨(List.range 4).map (fun i => if i < t.lanes then t.bits else 0),
    stdSwizzle (min t.lanes 4), .msb, false⟩⟩

/-- The two 4-dimensional layouts the normalizer distinguishes
(`nvcv::TENSOR_NCHW` / `nvcv::TENSOR_NHWC`). -/
inductive TensorLayout4 where
  | NCHW
  | NHWC
deriving DecidableEq, Repr

def TensorLayout4.isChannelLast : TensorLayout4 → Bool
  | .NHWC => true
  | .NCHW => false

/-- `BufferImageInfo` (Image.cpp, lines 75-84). -/
structure BufferImageInfo where
  numPlanes : Nat
  size : Int × Int
  numChannels : Nat
  isChannelLast : Bool
  planeStride : Int
  rowStride : Int
  dtype : DataType
  data : Int
deriving DecidableEq, Repr

/-- The rank-3/4 layout disambiguation (Image.cpp, lines 142-166): with a
declared format, channel-last iff the format's channel count at plane `p`
equals the trailing extent; otherwise channel-last iff the trailing extent
is at most 4. -/
def chooseLayout34 (fmt : ImageFormat) (p : Nat) (trailing : Int) : TensorLayout4 :=
  if fmt ≠ FMT_NONE then
    if (fmt.planeNumChannels p : Int) = trailing then .NHWC else .NCHW
  else
    if trailing ≤ 4 then .NHWC else .NCHW

/-- One iteration of the buffer loop of `ExtractBufferImageInfo`
(Image.cpp, lines 94-235, without the running channel total): normalize
buffer `tensor` (the `p`-th in the list) into a 4-d shape/stride pair,
choose its layout, validate the strides, and summarize it. -/
def extractOne (tensor : DLPackTensor) (fmt : ImageFormat) (p : Nat) :
    Except String BufferImageInfo := do
  let e : Int := tensor.dtype.elemStrideBytes
  let sh := fun i => tensor.shape.getD i 0
  let st := fun i => tensor.strides.getD i 0
  let n := tensor.ndim
  let (layout, shape, strides) ←
    if n = 1 then
      pure (TensorLayout4.NCHW, ((1 : Int), (1 : Int), (1 : Int), sh 0),
            (st 0 * e, st 0 * e, st 0 * e, st 0 * e))
    else if n = 2 then
      pure (TensorLayout4.NCHW, ((1 : Int), (1 : Int), sh 0, sh 1),
            (sh 0 * st 0 * e, sh 0 * st 0 * e, st 0 * e, st 1 * e))
    else if n = 3 ∨ n = 4 then
      let s0 : Int := if n = 3 then 1 else sh (n - 4)
      let layout := chooseLayout34 fmt p (sh (n - 1))
      let st1 := st (n - 3) * e
      let st0 : Int := if n = 3 then sh (n - 3) * st1 else st (n - 4)
      pure (layout, (s0, sh (n - 3), sh (n - 2), sh (n - 1)),
            (st0, st1, st (n - 2) * e, st (n - 1) * e))
    else
      throw "Number of buffer dimensions must be between 1 and 4"
  let (s0, s1, s2, s3) := shape
  let (t0, t1, t2, t3) := strides
  let channelLast := layout.isChannelLast
  let numCols : Int := if channelLast then s2 else s3
  let numRows : Int := if channelLast then s1 else s2
  let numChans : Int := if channelLast then s3 else s1
  let packedRowStride := e * numCols
  let rowStride : Int := if channelLast then t1 else t2
  if t0 ≤ 0 ∨ t1 ≤ 0 ∨ t2 ≤ 0 then
    .error "Buffer strides must be all >= 1"
  else if t3 ≠ e then
    .error "Fastest changing dimension must be packed"
  else if ¬ channelLast ∧ rowStride ≠ packedRowStride then
    .error "Image row must packed"
  else
    .ok { numPlanes := if channelLast then s0.toNat else numChans.toNat
          size := (numCols, numRows)
          numChannels := numChans.toNat
          isChannelLast := channelLast
          planeStride := if channelLast then t0 else t1
          rowStride := rowStride
          dtype := ToNVCVDataType tensor.dtype
          data := tensor.data }

/-- The buffer loop of `ExtractBufferImageInfo` with the running channel
total `curChannel` (Image.cpp, lines 228-232). -/
def extractGo (tensorList : List DLPackTensor) (fmt : ImageFormat) (p curChannel : Nat) :
    Except String (List BufferImageInfo) :=
  match tensorList with
  | [] => .ok []
  | t :: rest => do
    let b ← extractOne t fmt p
    let cur := curChannel + b.numPlanes * b.numChannels
    if cur > 4 then
      throw "Number of channels specified in a buffers must be <= 4"
    let bs ← extractGo rest fmt (p + 1) cur
    .ok (b :: bs)

/-- `ExtractBufferImageInfo` (Image.cpp, lines 86-239). -/
def ExtractBufferImageInfo (tensorList : List DLPackTensor) (fmt : ImageFormat) :
    Except String (List BufferImageInfo) :=
  extractGo tensorList fmt 0 0

/-! ## Canonical image assembly -/

/-- `NVCVImagePlaneStrided`: one plane of the canonical strided image. -/
structure ImagePlaneStrided where
  width : Int
  height : Int
  rowStride : Int
  basePtr : Int
deriving DecidableEq, Repr

def noPlane : ImagePlaneStrided := ⟨0, 0, 0, 0⟩

/-- The canonical image data: final format plus ordered plane list. -/
structure ImageData where
  format : ImageFormat
  planes : List ImagePlaneStrided
deriving DecidableEq, Repr

/-- The plane-expansion loop of `FillNVCVImageBufferStrided` (Image.cpp,
lines 375-388): buffer `b` contributes `b.numPlanes` planes, the `p`-th at
byte offset `planeStride * p`. -/
def expandBuf (b : BufferImageInfo) : List ImagePlaneStrided :=
  (List.range b.numPlanes).map (fun p =>
    ⟨b.size.1, b.size.2, b.rowStride, b.data + b.planeStride * p⟩)

/-- The per-plane element types pushed by the same loop: each contributed
plane gets the buffer's type repacked to `isChannelLast ? numChannels : 1`
channels (Image.cpp, line 386). -/
def bufPlaneTypes (b : BufferImageInfo) : List DataType :=
  List.replicate b.numPlanes
    (MakePackedType b.dtype (if b.isChannelLast then b.numChannels else 1))

/-- The tail of `FillNVCVImageBufferStrided` (Image.cpp, lines 389-433):
reject an empty plane list, infer the format, check a declared format for
data-layout compatibility and choose the final format, then check every
plane's size against what the final format expects. -/
def assembleImage (planes : List ImagePlaneStrided) (planeDataTypes : List DataType)
    (fmt : ImageFormat) : Except String ImageData :=
  if planes.length = 0 then
    .error "Number of planes must be >= 1"
  else
    (InferImageFormat planeDataTypes).bind fun inferredFormat =>
      (if fmt ≠ FMT_NONE then
        if ¬ HasSameDataLayout fmt inferredFormat then
          Except.error "Format inferred from buffers isn't compatible with given image format"
        else
          Except.ok fmt
      else
        Except.ok inferredFormat).bind fun finalFormat =>
        let p0 := planes.getD 0 noPlane
        let imgSize : Int × Int := (p0.width, p0.height)
        if (List.range planes.length).any (fun p =>
            let goldSize := finalFormat.planeSize imgSize p
            let pl := planes.getD p noPlane
            pl.width ≠ goldSize.1 ∨ pl.height ≠ goldSize.2) then
          .error "Plane size doesn't correspond to what's expected by format"
        else
          .ok ⟨finalFormat, planes⟩

/-- `FillNVCVImageBufferStrided` (Image.cpp, lines 352-434): extract the
buffer summaries, expand them into planes and per-plane element types, and
assemble the canonical image. -/
def FillNVCVImageBufferStrided (infos : List DLPackTensor) (fmt : ImageFormat) :
    Except String ImageData := do
  let bufferInfoList ← ExtractBufferImageInfo infos fmt
  assembleImage ((bufferInfoList.map expandBuf).flatten)
    ((bufferInfoList.map bufPlaneTypes).flatten) fmt

/-! ## Identity key (Image::Key) -/

/-- `Image::Key`: either a wrapper key or a (size, format) key. -/
structure ImageKey where
  isWrapper : Bool
  size : Int × Int
  format : ImageFormat
deriving DecidableEq, Repr

/-- `Image::Key::doIsCompatible` (Image.cpp, lines 39-58). -/
def ImageKey.doIsCompatible (a b : ImageKey) : Bool :=
  if a.isWrapper ∧ b.isWrapper then
    true
  else if a.isWrapper ∨ b.isWrapper then
    false
  else
    decide (a.size = b.size ∧ a.format = b.format)

/-! ## External-buffer wrapping (Image::setWrapData) -/

/-- Modelled from the spec: an external buffer as `setWrapData` sees it —
only its device locality matters there (spec §6 ingestion contract). -/
structure ExternalBuffer where
  device : DLDevice
deriving DecidableEq, Repr

/-- The wrap-related state of an `Image`: the recorded device type and the
python object holding the wrapped buffer(s). -/
structure WrapState where
  devType : Nat
  obj : List ExternalBuffer
deriving DecidableEq, Repr

/-- `Image::setWrapData` (Image.cpp, lines 671-699) as a state transition:
the device type of the first buffer is recorded, then with two or more
buffers every buffer's device is checked against the first, throwing on a
mismatch before the wrapped object is replaced.  Returns the state after
the call together with the error, if one was thrown. -/
def setWrapData (st : WrapState) (bufs : List ExternalBuffer) :
    WrapState × Option String :=
  match bufs with
  | [] => (st, some "assertion failed: bufs.size() >= 1")
  | b0 :: rest =>
    let st1 := { st with devType := b0.device.deviceType }
    if rest.isEmpty then
      ({ st1 with obj := [b0] }, none)
    else if rest.any (fun b =>
        b.device.deviceType ≠ b0.device.deviceType ∨ b.device.deviceId ≠ b0.device.deviceId) then
      (st1, some "All buffers must belong to the same device, but some don't.")
    else
      ({ st1 with obj := b0 :: rest }, none)

/-! ## Export engine (ToPyBufferInfo) -/

/-- One exported buffer descriptor: shape, byte strides, axis layout,
element type and base address. -/
structure OutBuf where
  shape : List Int
  strides : List Int
  layout : List Char
  dtype : DataType
  basePtr : Int
deriving DecidableEq, Repr

/-- The single-buffer decision loop of `ToPyBufferInfo` (Image.cpp, lines
780-807): planes `1 ≤ p < n` must match plane 0's width, height and row
stride, plane 0's data type must have fewer than 2 channels and equal every
plane's data type, and for `p ≥ 2` the base-pointer difference between
consecutive planes must equal the plane-0/plane-1 difference. -/
def singleBufferOk (d : ImageData) : Bool :=
  let first := d.planes.getD 0 noPlane
  (List.range d.planes.length).all (fun p =>
    if p = 0 then true
    else
      let pl := d.planes.getD p noPlane
      decide (pl.width = first.width ∧ pl.height = first.height
        ∧ pl.rowStride = first.rowStride
        ∧ (d.format.planeDataType 0).numChannels < 2
        ∧ d.format.planeDataType 0 = d.format.planeDataType p
        ∧ (2 ≤ p →
            pl.basePtr - (d.planes.getD (p - 1) noPlane).basePtr
              = (d.planes.getD 1 noPlane).basePtr - first.basePtr)))

/-- The inferred layout, shape, strides and element type of exported buffer
`p` (Image.cpp, lines 814-883): with a single coalesced buffer the layout is
`HW` for a 1-channel format, `HWC` for a single multi-channel plane and
`CHW` for several single-channel planes; otherwise each plane is exported
as an `HWC` buffer.  The sub-pixel packings (`X8_Y8__X8_Z8` and its
mirror) count as 2 channels per pixel. -/
def inferExport (d : ImageData) (numBuffers p : Nat) :
    List Int × List Int × List Char × DataType :=
  let pl := d.planes.getD p noPlane
  let planeWidth := pl.width
  let planeHeight := pl.height
  let planeNumChannels : Nat :=
    if (d.format.planePacking p).subPixel then 2 else d.format.planeNumChannels p
  let planeBPP := d.format.planeBPP p
  if numBuffers = 1 then
    if d.format.numChannels = 1 then
      ([planeHeight, planeWidth], [pl.rowStride, planeBPP], ['H', 'W'],
       d.format.planeDataType p)
    else if d.planes.length = 1 then
      ([planeHeight, planeWidth, (planeNumChannels : Int)],
       [pl.rowStride, planeBPP, planeBPP / (planeNumChannels : Int)], ['H', 'W', 'C'],
       (d.format.planeDataType p).channelType0)
    else
      let planeStride :=
        (d.planes.getD 1 noPlane).basePtr - (d.planes.getD 0 noPlane).basePtr
      ([(d.planes.length : Int), planeHeight, planeWidth],
       [planeStride, pl.rowStride, planeBPP], ['C', 'H', 'W'],
       d.format.planeDataType p)
  else
    ([planeHeight, planeWidth, (planeNumChannels : Int)],
     [pl.rowStride, planeBPP, planeBPP / (planeNumChannels : Int)], ['H', 'W', 'C'],
     (d.format.planeDataType p).channelType0)

/-- Index of the first occurrence of `c` in `l` (`TensorLayout::find`,
returning `none` where the C++ returns a negative index). -/
def findIdx (l : List Char) (c : Char) : Option Nat := l.findIdx? (fun x => x = c)

/-- The fill loop over the characters of the user-requested layout
(Image.cpp, lines 909-933): an axis absent from the inferred layout is
synthesized with extent 1 and stride 0; a present axis must come strictly
after the previously matched inferred axis (`idxLast`), else the layout is
incompatible. -/
def fillGo (inferredLayout : List Char) (inferredShape inferredStrides : List Int)
    (user : List Char) (idxLast : Int) : Except String (List Int × List Int) :=
  match user with
  | [] => .ok ([], [])
  | c :: rest =>
    match findIdx inferredLayout c with
    | none => do
      let (s, t) ← fillGo inferredLayout inferredShape inferredStrides rest idxLast
      .ok (1 :: s, 0 :: t)
    | some j =>
      if idxLast ≥ (j : Int) then
        .error "Layout not compatible with image to be exported"
      else do
        let (s, t) ← fillGo inferredLayout inferredShape inferredStrides rest (j : Int)
        .ok (inferredShape.getD j 0 :: s, inferredStrides.getD j 0 :: t)

/-- The user-layout handling of `ToPyBufferInfo` (Image.cpp, lines
893-933): every inferred axis with extent at least 2 must occur in the
user layout, then the final shape and strides are filled from the user
layout by `fillGo`. -/
def applyUserLayout (inferredLayout : List Char) (inferredShape inferredStrides : List Int)
    (user : List Char) : Except String (List Int × List Int) :=
  if (List.range inferredLayout.length).any (fun i =>
      inferredShape.getD i 0 ≥ 2 ∧ findIdx user (inferredLayout.getD i ' ') = none) then
    .error "Layout need dimension"
  else
    fillGo inferredLayout inferredShape inferredStrides user (-1)

/-- The buffer emitted for plane index `p` when no user layout is
requested: the inferred shape, strides, layout and element type, based at
plane `p`'s address. -/
def exportNoneBuf (d : ImageData) (numBuffers p : Nat) : OutBuf :=
  ⟨(inferExport d numBuffers p).1, (inferExport d numBuffers p).2.1,
   (inferExport d numBuffers p).2.2.1, (inferExport d numBuffers p).2.2.2,
   (d.planes.getD p noPlane).basePtr⟩

/-- One iteration of the buffer-emission loop of `ToPyBufferInfo`
(Image.cpp, lines 814-949). -/
def exportOne (d : ImageData) (numBuffers : Nat) (userLayout : Option (List Char))
    (p : Nat) : Except String OutBuf :=
  match userLayout with
  | some ul => do
    let (shape, strides) ← applyUserLayout (inferExport d numBuffers p).2.2.1
        (inferExport d numBuffers p).1 (inferExport d numBuffers p).2.1 ul
    .ok ⟨shape, strides, ul, (inferExport d numBuffers p).2.2.2,
         (d.planes.getD p noPlane).basePtr⟩
  | none => .ok (exportNoneBuf d numBuffers p)

/-- The loop of `ToPyBufferInfo` over the emitted buffer indices. -/
def exportAll (d : ImageData) (numBuffers : Nat) (userLayout : Option (List Char)) :
    List Nat → Except String (List OutBuf)
  | [] => .ok []
  | p :: ps => do
    let b ← exportOne d numBuffers userLayout p
    let bs ← exportAll d numBuffers userLayout ps
    .ok (b :: bs)

/-- `ToPyBufferInfo` (Image.cpp, lines 757-952): an image with no planes
exports nothing; otherwise the single-buffer heuristic decides between one
coalesced buffer and one buffer per plane, and each emitted buffer gets
the inferred or user-requested layout.  (The `TensorLayoutInfoImage`
validity check on the user layout is modelled as always succeeding: the
axis layouts exercised here are all image layouts.) -/
def ToPyBufferInfo (d : ImageData) (userLayout : Option (List Char)) :
    Except String (List OutBuf) :=
  if d.planes.length < 1 then .ok []
  else
    let numBuffers := if singleBufferOk d then 1 else d.planes.length
    exportAll d numBuffers userLayout (List.range numBuffers)

/-! ## Re-ingestion of exported buffers (round trip) -/

/-- Modelled from the spec: the element-type descriptor of an exported
buffer, as the cross-framework interchange sees it — channel count becomes
`lanes`, channel 0's width becomes `bits` (spec §6). -/
def toDLDataType (t : DataType) : DLDataType :=
  ⟨t.dataKind, t.packing.bits.getD 0 0, t.numChannels⟩

/-- Modelled from the spec: an exported buffer descriptor re-enters the
ingestion path as a rank-`layout.rank` tensor whose per-axis strides are
the byte strides divided by the element size (the interchange convention
counts strides in elements, spec §6). -/
def toDLPack (b : OutBuf) (dev : DLDevice) : DLPackTensor :=
  let e := (toDLDataType b.dtype).elemStrideBytes
  ⟨b.shape.length, b.shape, b.strides.map (fun s => s / e), toDLDataType b.dtype,
   b.basePtr, dev⟩

/-- The round trip of claim C9: export with no requested layout, then
re-ingest the resulting buffer descriptors with the image's own format as
the declared format. -/
def roundTrip (d : ImageData) (dev : DLDevice) : Except String ImageData := do
  let outs ← ToPyBufferInfo d none
  FillNVCVImageBufferStrided (outs.map (toDLPack · dev)) d.format

/-! ## Helper lemmas -/

@[simp]
theorem ok_bind {α β : Type} (a : α) (f : α → Except String β) :
    (Except.ok a >>= f) = f a := rfl

@[simp]
theorem error_bind {α β : Type} (e : String) (f : α → Except String β) :
    ((Except.error e : Except String α) >>= f) = Except.error e := rfl

@[simp]
theorem throw_eq_error {α : Type} (e : String) :
    (throw e : Except String α) = Except.error e := rfl

@[simp]
theorem pure_eq_ok {α : Type} (a : α) : (pure a : Except String α) = Except.ok a := rfl

@[simp]
theorem bind_ok_eq {α β : Type} (a : α) (f : α → Except String β) :
    Except.bind (Except.ok a) f = f a := rfl

@[simp]
theorem bind_error_eq {α β : Type} (e : String) (f : α → Except String β) :
    Except.bind (Except.error e : Except String α) f = Except.error e := rfl

/-- The layout chosen by the rank-3/4 disambiguation, as a boolean. -/
theorem chooseLayout34_isChannelLast (fmt : ImageFormat) (p : Nat) (c : Int) :
    (chooseLayout34 fmt p c).isChannelLast =
      (if fmt ≠ FMT_NONE then decide ((fmt.planeNumChannels p : Int) = c)
       else decide (c ≤ 4)) := by
  unfold chooseLayout34
  split
  · split <;> simp_all [TensorLayout4.isChannelLast]
  · split <;> simp_all [TensorLayout4.isChannelLast]

/-! ## Claims -/

/-- C4: `Image::Key::doIsCompatible` is a strict two-class partition: any
two Wrapper keys are compatible, a Wrapper key is never compatible with a
non-wrapper key, and two non-wrapper keys are compatible exactly when both
their size and their format agree. -/
theorem imageKey_doIsCompatible_partition (a b : ImageKey) :
    (a.isWrapper = true ∧ b.isWrapper = true → a.doIsCompatible b = true)
  ∧ (a.isWrapper ≠ b.isWrapper → a.doIsCompatible b = false)
  ∧ (a.isWrapper = false → b.isWrapper = false →
      (a.doIsCompatible b = true ↔ a.size = b.size ∧ a.format = b.format)) := by
  unfold ImageKey.doIsCompatible
  cases ha : a.isWrapper <;> cases hb : b.isWrapper <;> simp

/-- Witness for C4 at concrete keys: two Wrapper keys are compatible. -/
theorem imageKey_doIsCompatible_partition_witness :
    (ImageKey.mk true (0, 0) FMT_NONE).doIsCompatible (ImageKey.mk true (1, 1) FMT_U8)
      = true :=
  (imageKey_doIsCompatible_partition ⟨true, (0, 0), FMT_NONE⟩ ⟨true, (1, 1), FMT_U8⟩).1
    ⟨rfl, rfl⟩

/-- C10: with two or more wrapped buffers, `Image::setWrapData` throws
whenever some buffer's device type or device id differs from the first
buffer's, and the image then keeps none of the new buffers as its wrapped
object; with a single buffer no cross-device check is performed and the
call succeeds. -/
theorem setWrapData_device_check (st : WrapState) (b0 : ExternalBuffer)
    (rest : List ExternalBuffer) :
    (rest ≠ [] →
     (∃ b ∈ rest, b.device.deviceType ≠ b0.device.deviceType
         ∨ b.device.deviceId ≠ b0.device.deviceId) →
        (∃ e, (setWrapData st (b0 :: rest)).2 = some e)
      ∧ ((setWrapData st (b0 :: rest)).1).obj = st.obj)
  ∧ (rest = [] → (setWrapData st (b0 :: rest)).2 = none) := by
  constructor
  · intro hne hex
    have hany : rest.any (fun b =>
        decide (b.device.deviceType ≠ b0.device.deviceType
          ∨ b.device.deviceId ≠ b0.device.deviceId)) = true := by
      rw [List.any_eq_true]
      obtain ⟨b, hb, hd⟩ := hex
      exact ⟨b, hb, by simpa using hd⟩
    have hemp : ¬ (rest.isEmpty = true) := by
      cases rest with
      | nil => exact absurd rfl hne
      | cons x xs => simp
    have hval : setWrapData st (b0 :: rest)
        = ({ st with devType := b0.device.deviceType },
           some "All buffers must belong to the same device, but some don't.") := by
      simp only [setWrapData]
      rw [if_neg hemp, if_pos hany]
    rw [hval]
    exact ⟨⟨_, rfl⟩, rfl⟩
  · intro h
    subst h
    simp [setWrapData, List.isEmpty]

/-- Witness for C10: a concrete two-buffer wrap with mismatched device ids
throws and leaves the wrapped object untouched, and a single-buffer wrap
succeeds. -/
theorem setWrapData_device_check_witness :
    ((∃ e, (setWrapData ⟨0, []⟩ [⟨⟨2, 0⟩⟩, ⟨⟨2, 1⟩⟩]).2 = some e)
      ∧ ((setWrapData ⟨0, []⟩ [⟨⟨2, 0⟩⟩, ⟨⟨2, 1⟩⟩]).1).obj = [])
  ∧ (setWrapData ⟨0, []⟩ [⟨⟨2, 0⟩⟩]).2 = none := by
  constructor
  · exact (setWrapData_device_check ⟨0, []⟩ ⟨⟨2, 0⟩⟩ [⟨⟨2, 1⟩⟩]).1 (by simp)
      ⟨⟨⟨2, 1⟩⟩, by simp, Or.inr (by simp)⟩
  · exact (setWrapData_device_check ⟨0, []⟩ ⟨⟨2, 0⟩⟩ []).2 rfl

/-- C1: for a rank-3 or rank-4 buffer, the normalizer chooses channel-last
(NHWC) iff, with a declared format, the format's channel count at this
plane equals the buffer's trailing extent, and, with no declared format,
iff the trailing extent is at most 4. -/
theorem extract_layout_disambiguation (t : DLPackTensor) (fmt : ImageFormat) (p : Nat)
    (b : BufferImageInfo) (hrank : t.ndim = 3 ∨ t.ndim = 4)
    (hok : extractOne t fmt p = .ok b) :
    b.isChannelLast =
      (if fmt ≠ FMT_NONE
       then decide ((fmt.planeNumChannels p : Int) = t.shape.getD (t.ndim - 1) 0)
       else decide (t.shape.getD (t.ndim - 1) 0 ≤ 4)) := by
  unfold extractOne at hok
  rcases hrank with h | h <;>
    · simp only [h] at hok ⊢
      norm_num at hok ⊢
      repeat' split at hok
      all_goals try exact Except.noConfusion hok
      all_goals
        injection hok with hb
        subst hb
        dsimp only
        rw [chooseLayout34_isChannelLast]
        by_cases hf : fmt = FMT_NONE <;> simp [hf]

/-- C8: `InferImageFormat` returns the none format for an empty list; a
non-empty list of at most 4 total channels whose members all share plane
0's data kind never throws; and it throws exactly when some plane's data
kind differs from plane 0's. -/
theorem inferImageFormat_totality (t0 : DataType) (rest : List DataType)
    (hch : ((t0 :: rest).map DataType.numChannels).sum ≤ 4) :
    (InferImageFormat ([] : List DataType) = .ok FMT_NONE)
  ∧ ((∀ t ∈ t0 :: rest, t.dataKind = t0.dataKind) →
        ∃ f, InferImageFormat (t0 :: rest) = .ok f)
  ∧ ((∃ e, InferImageFormat (t0 :: rest) = .error e) ↔
        ∃ t ∈ t0 :: rest, t.dataKind ≠ t0.dataKind) := by
  refine ⟨rfl, ?_, ?_⟩
  · intro hall
    have hany : ((t0 :: rest).any fun t => decide ¬(t.dataKind = t0.dataKind)) = false := by
      simp only [List.any_eq_false, decide_eq_true_eq]
      intro t ht
      simpa using hall t ht
    simp only [InferImageFormat]
    rw [if_neg (by rw [hany]; simp)]
    repeat' split
    all_goals exact ⟨_, rfl⟩
  · constructor
    · rintro ⟨e, he⟩
      by_contra hall
      push_neg at hall
      have hany : ((t0 :: rest).any fun t => decide ¬(t.dataKind = t0.dataKind)) = false := by
        simp only [List.any_eq_false, decide_eq_true_eq]
        intro t ht
        simpa using hall t ht
      simp only [InferImageFormat] at he
      rw [if_neg (by rw [hany]; simp)] at he
      repeat' split at he
      all_goals exact Except.noConfusion he
    · rintro ⟨t, ht, hne⟩
      have hany : ((t0 :: rest).any fun t => decide ¬(t.dataKind = t0.dataKind)) = true := by
        rw [List.any_eq_true]
        exact ⟨t, ht, by simpa using hne⟩
      refine ⟨"Planes must all have the same data type", ?_⟩
      simp only [InferImageFormat]
      rw [if_pos hany]

/-- Witness for C8: a single 8-bit unsigned plane never throws, and the
empty list yields the none format. -/
theorem inferImageFormat_totality_witness :
    (InferImageFormat ([] : List DataType) = .ok FMT_NONE)
  ∧ ∃ f, InferImageFormat [DataType.mk .unsigned Packing.X8] = .ok f := by
  have h := inferImageFormat_totality ⟨.unsigned, Packing.X8⟩ [] (by decide)
  exact ⟨h.1, h.2.1 (by intro t ht; simp at ht; rw [ht])⟩

/-- C2: for a non-empty plane-type list of one shared data kind and total
channel count between 1 and 4, `InferImageFormat` follows the claimed case
analysis: with one plane or a fully planar list it substitutes the shared
data kind and the per-plane packings into the base format indexed by total
channel count, preserving that base format's color model and swizzle;
with exactly 2 planes and 3 total channels it substitutes them into the
NV12-like semi-planar template. -/
theorem inferImageFormat_case_analysis (t0 : DataType) (rest : List DataType)
    (hkind : ∀ t ∈ t0 :: rest, t.dataKind = t0.dataKind)
    (hch1 : 1 ≤ ((t0 :: rest).map DataType.numChannels).sum)
    (hch4 : ((t0 :: rest).map DataType.numChannels).sum ≤ 4) :
    (((t0 :: rest).length = 1
        ∨ ((t0 :: rest).map DataType.numChannels).sum = (t0 :: rest).length) →
      ∃ f, InferImageFormat (t0 :: rest) = .ok f
        ∧ f.colorModel = ([FMT_U8, FMT_2F32, FMT_RGB8, FMT_RGBA8].getD
            (((t0 :: rest).map DataType.numChannels).sum - 1) FMT_U8).colorModel
        ∧ f.swizzle = ([FMT_U8, FMT_2F32, FMT_RGB8, FMT_RGBA8].getD
            (((t0 :: rest).map DataType.numChannels).sum - 1) FMT_U8).swizzle
        ∧ f.dataKind = t0.dataKind
        ∧ f.packings = pad4 ((t0 :: rest).map DataType.packing))
  ∧ ((t0 :: rest).length = 2 ∧ ((t0 :: rest).map DataType.numChannels).sum = 3 →
      InferImageFormat (t0 :: rest)
        = .ok { FMT_NV12_ER with
                dataKind := t0.dataKind
                swizzle := S_XYZ0
                packings := pad4 ((t0 :: rest).map DataType.packing) }) := by
  have hany : ((t0 :: rest).any fun t => decide ¬(t.dataKind = t0.dataKind)) = false := by
    simp only [List.any_eq_false, decide_eq_true_eq]
    intro t ht
    simpa using hkind t ht
  constructor
  · intro h1
    have hc : ((t0 :: rest).map DataType.numChannels).sum = 1
        ∨ ((t0 :: rest).map DataType.numChannels).sum = 2
        ∨ ((t0 :: rest).map DataType.numChannels).sum = 3
        ∨ ((t0 :: rest).map DataType.numChannels).sum = 4 := by omega
    simp only [InferImageFormat]
    rw [if_neg (by rw [hany]; simp), if_pos h1]
    rcases hc with hc | hc | hc | hc <;> rw [hc] <;>
      exact ⟨_, rfl, rfl, rfl, rfl, rfl⟩
  · rintro ⟨hn2, hc3⟩
    simp only [InferImageFormat]
    rw [if_neg (by rw [hany]; simp), if_neg (by rw [hn2, hc3]; decide),
      if_pos (by rw [hn2, hc3]; exact ⟨rfl, rfl⟩)]

/-- Witness for C2: one packed 3-channel 8-bit plane yields a format with
the three-channel color base's model and swizzle; a 1-channel plus
2-channel pair yields the semi-planar template. -/
theorem inferImageFormat_case_analysis_witness :
    (∃ f, InferImageFormat [DataType.mk .unsigned Packing.X8_Y8_Z8] = .ok f
        ∧ f.colorModel = ColorModel.rgb)
  ∧ InferImageFormat [DataType.mk .unsigned Packing.X8, DataType.mk .unsigned Packing.X8_Y8]
      = .ok { FMT_NV12_ER with
              dataKind := DataKind.unsigned
              swizzle := S_XYZ0
              packings := pad4 [Packing.X8, Packing.X8_Y8] } := by
  constructor
  · obtain ⟨f, hf, hcm, -⟩ :=
      (inferImageFormat_case_analysis ⟨.unsigned, Packing.X8_Y8_Z8⟩ []
        (by intro t ht; simp at ht; rw [ht]) (by decide) (by decide)).1 (Or.inl rfl)
    exact ⟨f, hf, by rw [hcm]; decide⟩
  · exact (inferImageFormat_case_analysis ⟨.unsigned, Packing.X8⟩
      [⟨.unsigned, Packing.X8_Y8⟩]
      (by intro t ht; simp at ht; rcases ht with h | h <;> rw [h]) (by decide) (by decide)).2
      ⟨rfl, by decide⟩

/-- C3: canonical image assembly with a declared format throws when the
declared format does not share the inferred format's data layout;
otherwise the resulting image carries the declared format when one is
given and the inferred format when none is, and after the final format is
chosen assembly throws whenever some plane's width or height differs from
`finalFormat.planeSize(imageSize, p)` (success conversely guarantees every
plane matches). -/
theorem assembleImage_validation (planes : List ImagePlaneStrided)
    (ptys : List DataType) (fmt inferred : ImageFormat)
    (hne : planes ≠ [])
    (hinf : InferImageFormat ptys = .ok inferred) :
    (fmt ≠ FMT_NONE → HasSameDataLayout fmt inferred = false →
        assembleImage planes ptys fmt
          = .error "Format inferred from buffers isn't compatible with given image format")
  ∧ (∀ d, assembleImage planes ptys fmt = .ok d →
        d.format = (if fmt = FMT_NONE then inferred else fmt)
      ∧ d.planes = planes
      ∧ ∀ p < planes.length,
          ((planes.getD p noPlane).width, (planes.getD p noPlane).height)
            = d.format.planeSize
                ((planes.getD 0 noPlane).width, (planes.getD 0 noPlane).height) p)
  ∧ ((fmt = FMT_NONE ∨ HasSameDataLayout fmt inferred = true) →
     (∃ p < planes.length,
        ((planes.getD p noPlane).width, (planes.getD p noPlane).height)
          ≠ (if fmt = FMT_NONE then inferred else fmt).planeSize
              ((planes.getD 0 noPlane).width, (planes.getD 0 noPlane).height) p) →
        ∃ e, assembleImage planes ptys fmt = .error e) := by
  have h0 : ¬(planes.length = 0) := by
    simpa using hne
  refine ⟨?_, ?_, ?_⟩
  · intro hf hlay
    simp only [assembleImage, hinf]
    rw [if_neg h0, bind_ok_eq, if_pos hf, if_pos (by simp [hlay]), bind_error_eq]
  · intro d hd
    simp only [assembleImage, hinf] at hd
    rw [if_neg h0, bind_ok_eq] at hd
    by_cases hf : fmt = FMT_NONE
    · rw [if_neg (by simp [hf]), bind_ok_eq] at hd
      split at hd
      · exact Except.noConfusion hd
      · rename_i hall
        injection hd with hd
        subst hd
        refine ⟨by simp [hf], rfl, ?_⟩
        intro p hp
        have h := List.any_eq_false.mp (Bool.not_eq_true _ ▸ hall) p (List.mem_range.mpr hp)
        simp only [decide_eq_true_eq, not_or, not_not] at h
        exact Prod.ext_iff.mpr ⟨h.1, h.2⟩
    · rw [if_pos hf] at hd
      by_cases hlay : HasSameDataLayout fmt inferred = true
      · rw [if_neg (by simp [hlay]), bind_ok_eq] at hd
        split at hd
        · exact Except.noConfusion hd
        · rename_i hall
          injection hd with hd
          subst hd
          refine ⟨by simp [hf], rfl, ?_⟩
          intro p hp
          have h := List.any_eq_false.mp (Bool.not_eq_true _ ▸ hall) p (List.mem_range.mpr hp)
          simp only [decide_eq_true_eq, not_or, not_not] at h
          exact Prod.ext_iff.mpr ⟨h.1, h.2⟩
      · rw [if_pos (by simpa using hlay), bind_error_eq] at hd
        exact Except.noConfusion hd
  · intro hpass hmis
    obtain ⟨p, hp, hneq⟩ := hmis
    refine ⟨"Plane size doesn't correspond to what's expected by format", ?_⟩
    simp only [assembleImage, hinf]
    rw [if_neg h0, bind_ok_eq]
    have hfinal : (if fmt ≠ FMT_NONE then
        if ¬ HasSameDataLayout fmt inferred then
          Except.error "Format inferred from buffers isn't compatible with given image format"
        else Except.ok fmt
      else Except.ok inferred) = Except.ok (if fmt = FMT_NONE then inferred else fmt) := by
      rcases hpass with hf | hlay
      · rw [if_neg (by simp [hf]), if_pos hf]
      · by_cases hf : fmt = FMT_NONE
        · rw [if_neg (by simp [hf]), if_pos hf]
        · rw [if_pos hf, if_neg (by simp [hlay]), if_neg hf]
    rw [hfinal, bind_ok_eq, if_pos]
    rw [List.any_eq_true]
    refine ⟨p, List.mem_range.mpr hp, ?_⟩
    simp only [decide_eq_true_eq]
    by_contra hcon
    push_neg at hcon
    exact hneq (Prod.ext_iff.mpr hcon)

/-- Witness for C3 at a concrete input: a declared RGBA8 format whose
layout differs from the inferred single-channel layout is rejected, and
assembly with a matching declared format yields that format. -/
theorem assembleImage_validation_witness :
    (assembleImage [⟨64, 48, 64, 0⟩] [⟨.unsigned, Packing.X8⟩] FMT_RGBA8
        = .error "Format inferred from buffers isn't compatible with given image format")
  ∧ (∀ d, assembleImage [⟨64, 48, 64, 0⟩] [⟨.unsigned, Packing.X8⟩] FMT_U8 = .ok d →
        d.format = FMT_U8) := by
  constructor
  · exact (assembleImage_validation [⟨64, 48, 64, 0⟩] [⟨.unsigned, Packing.X8⟩]
      FMT_RGBA8 _ (by simp) rfl).1 (by decide) (by decide)
  · intro d hd
    have h := ((assembleImage_validation [⟨64, 48, 64, 0⟩] [⟨.unsigned, Packing.X8⟩]
      FMT_U8 _ (by simp) rfl).2.1 d hd).1
    rw [h]
    decide

/-- Counterexample to C7 as stated: a channel-last buffer with trailing
extent 2 carrying a 3-lane 8-bit element type passes every ingestion check
(stride validation, layout choice) and reaches the repack with target
channel count 2, yet the repacked type holds 3 channels, not 2 — the
`switch`/bit-copy of `MakePackedType` rewrites channels below the target
but leaves the extra input channels in place, so it never narrows. -/
theorem makePackedType_claim_counterexample :
    (∃ b, extractOne ⟨3, [4, 5, 2], [10, 2, 1], ⟨.unsigned, 8, 3⟩, 0, ⟨2, 0⟩⟩
        FMT_NONE 0 = .ok b
      ∧ b.isChannelLast = true
      ∧ b.numChannels = 2
      ∧ b.dtype = ToNVCVDataType ⟨.unsigned, 8, 3⟩)
  ∧ (MakePackedType (ToNVCVDataType ⟨.unsigned, 8, 3⟩) 2).numChannels = 3
  ∧ ¬ (MakePackedType (ToNVCVDataType ⟨.unsigned, 8, 3⟩) 2).numChannels = 2 :=
  ⟨⟨_, rfl, rfl, by decide, rfl⟩, by decide, by decide⟩

set_option maxHeartbeats 1600000 in
/-- C7 (amended): for every ingested element type (nonzero bit width, 1-4
lanes) and target channel count 1-4, the repack keeps the data kind, the
byte order and every channel's bit width — only the channel count and the
swizzle mask change; the result holds exactly the target channel count
whenever the ingested type's lane count does not exceed the target, and
otherwise keeps the larger lane count (the repack never narrows), so in
general the resulting channel count is the maximum of the two. -/
theorem makePackedType_ingested_spec (dl : DLDataType) (n : Nat)
    (hb : dl.bits ≠ 0) (hl1 : 1 ≤ dl.lanes) (hl4 : dl.lanes ≤ 4)
    (hn1 : 1 ≤ n) (hn4 : n ≤ 4) :
    (MakePackedType (ToNVCVDataType dl) n).dataKind = (ToNVCVDataType dl).dataKind
  ∧ (MakePackedType (ToNVCVDataType dl) n).packing.byteOrder
      = (ToNVCVDataType dl).packing.byteOrder
  ∧ (∀ i, i < 4 →
      (MakePackedType (ToNVCVDataType dl) n).packing.bits.getD i 0 = dl.bits
      ∨ (MakePackedType (ToNVCVDataType dl) n).packing.bits.getD i 0 = 0)
  ∧ (MakePackedType (ToNVCVDataType dl) n).numChannels = max dl.lanes n
  ∧ (dl.lanes ≤ n → (MakePackedType (ToNVCVDataType dl) n).numChannels = n) := by
  obtain ⟨kind, B, L⟩ := dl
  simp only at hb hl1 hl4 hn1 hn4 ⊢
  have hr4 : List.range 4 = [0, 1, 2, 3] := rfl
  interval_cases n <;> interval_cases L <;>
    refine ⟨?_, ?_, ?_, ?_, ?_⟩ <;>
      first
        | (simp [MakePackedType, ToNVCVDataType, DataType.numChannels, Packing.numChannels,
            stdSwizzle, hb, hr4, List.countP_cons, List.countP_nil, Function.comp]
           done)
        | (intro i hi
           interval_cases i <;>
             simp [MakePackedType, ToNVCVDataType, DataType.numChannels, Packing.numChannels,
               stdSwizzle, hb, hr4, List.countP_cons, List.countP_nil, Function.comp])

/-- Witness for the amended C7: widening an 8-bit single-lane ingested
type to 3 channels yields exactly 3 channels, while repacking a 3-lane
type toward 2 channels keeps 3 (the maximum). -/
theorem makePackedType_ingested_spec_witness :
    (MakePackedType (ToNVCVDataType ⟨.unsigned, 8, 1⟩) 3).numChannels = 3
  ∧ (MakePackedType (ToNVCVDataType ⟨.unsigned, 8, 3⟩) 2).numChannels = max 3 2 :=
  ⟨(makePackedType_ingested_spec ⟨.unsigned, 8, 1⟩ 3 (by decide) (by decide) (by decide)
      (by decide) (by decide)).2.2.2.2 (by decide),
   (makePackedType_ingested_spec ⟨.unsigned, 8, 3⟩ 2 (by decide) (by decide) (by decide)
      (by decide) (by decide)).2.2.2.1⟩

/-- The fill loop never accepts a matched inferred index at or below the
running `idxLast` bound: every match found along a successful run is
strictly above the bound it started from. -/
theorem fillGo_lb (il : List Char) (ish ist : List Int) :
    ∀ (user : List Char) (idxLast : Int) (r : List Int × List Int),
      fillGo il ish ist user idxLast = .ok r →
      ∀ k < user.length, ∀ j, findIdx il (user.getD k ' ') = some j →
        idxLast < (j : Int) := by
  intro user
  induction user with
  | nil => intro idxLast r h k hk; simp at hk
  | cons c rest ih =>
    intro idxLast r h k hk j hj
    simp only [fillGo] at h
    cases hfind : findIdx il c with
    | none =>
      simp only [hfind] at h
      cases hrec : fillGo il ish ist rest idxLast with
      | error e => rw [hrec] at h; simp at h
      | ok r2 =>
        cases k with
        | zero => rw [List.getD_cons_zero] at hj; rw [hfind] at hj; exact Option.noConfusion hj
        | succ k =>
          rw [List.getD_cons_succ] at hj
          exact ih idxLast r2 hrec k (by simpa using hk) j hj
    | some j0 =>
      simp only [hfind] at h
      by_cases hge : idxLast ≥ (j0 : Int)
      · rw [if_pos hge] at h; exact Except.noConfusion h
      · rw [if_neg hge] at h
        push_neg at hge
        cases hrec : fillGo il ish ist rest (j0 : Int) with
        | error e => rw [hrec] at h; simp at h
        | ok r2 =>
          cases k with
          | zero =>
            rw [List.getD_cons_zero] at hj
            rw [hfind] at hj
            injection hj with hj
            subst hj
            exact hge
          | succ k =>
            rw [List.getD_cons_succ] at hj
            exact lt_trans hge (ih (j0 : Int) r2 hrec k (by simpa using hk) j hj)

/-- Along a successful fill, the inferred indices matched at increasing
user positions are strictly increasing. -/
theorem fillGo_increasing (il : List Char) (ish ist : List Int) :
    ∀ (user : List Char) (idxLast : Int) (r : List Int × List Int),
      fillGo il ish ist user idxLast = .ok r →
      ∀ k1 k2 j1 j2, k1 < k2 → k2 < user.length →
        findIdx il (user.getD k1 ' ') = some j1 →
        findIdx il (user.getD k2 ' ') = some j2 →
        j1 < j2 := by
  intro user
  induction user with
  | nil => intro idxLast r h k1 k2 j1 j2 h12 hk2; simp at hk2
  | cons c rest ih =>
    intro idxLast r h k1 k2 j1 j2 h12 hk2 hj1 hj2
    simp only [fillGo] at h
    cases hfind : findIdx il c with
    | none =>
      simp only [hfind] at h
      cases hrec : fillGo il ish ist rest idxLast with
      | error e => rw [hrec] at h; simp at h
      | ok r2 =>
        cases k1 with
        | zero => rw [List.getD_cons_zero, hfind] at hj1; exact Option.noConfusion hj1
        | succ k1 =>
          cases k2 with
          | zero => omega
          | succ k2 =>
            rw [List.getD_cons_succ] at hj1 hj2
            exact ih idxLast r2 hrec k1 k2 j1 j2 (by omega) (by simpa using hk2) hj1 hj2
    | some j0 =>
      simp only [hfind] at h
      by_cases hge : idxLast ≥ (j0 : Int)
      · rw [if_pos hge] at h; exact Except.noConfusion h
      · rw [if_neg hge] at h
        cases hrec : fillGo il ish ist rest (j0 : Int) with
        | error e => rw [hrec] at h; simp at h
        | ok r2 =>
          cases k1 with
          | zero =>
            rw [List.getD_cons_zero, hfind] at hj1
            injection hj1 with hj1
            cases k2 with
            | zero => omega
            | succ k2 =>
              rw [List.getD_cons_succ] at hj2
              have hlt := fillGo_lb il ish ist rest (j0 : Int) r2 hrec k2
                (by simpa using hk2) j2 hj2
              have hlt2 : j0 < j2 := by exact_mod_cast hlt
              omega
          | succ k1 =>
            cases k2 with
            | zero => omega
            | succ k2 =>
              rw [List.getD_cons_succ] at hj1 hj2
              exact ih (j0 : Int) r2 hrec k1 k2 j1 j2 (by omega) (by simpa using hk2) hj1 hj2

/-- A user axis with no inferred counterpart is filled with extent 1 and
stride 0. -/
theorem fillGo_unmatched (il : List Char) (ish ist : List Int) :
    ∀ (user : List Char) (idxLast : Int) (sh st : List Int),
      fillGo il ish ist user idxLast = .ok (sh, st) →
      ∀ k < user.length, findIdx il (user.getD k ' ') = none →
        sh.getD k 0 = 1 ∧ st.getD k 0 = 0 := by
  intro user
  induction user with
  | nil => intro idxLast sh st h k hk; simp at hk
  | cons c rest ih =>
    intro idxLast sh st h k hk hnone
    simp only [fillGo] at h
    cases hfind : findIdx il c with
    | none =>
      simp only [hfind] at h
      cases hrec : fillGo il ish ist rest idxLast with
      | error e => rw [hrec] at h; simp at h
      | ok r2 =>
        obtain ⟨s2, t2⟩ := r2
        rw [hrec] at h
        simp only [bind_ok_eq, ok_bind] at h
        injection h with h
        injection h with hsh hst
        subst hsh
        subst hst
        cases k with
        | zero => exact ⟨rfl, rfl⟩
        | succ k =>
          rw [List.getD_cons_succ] at hnone ⊢
          rw [List.getD_cons_succ]
          exact ih idxLast s2 t2 hrec k (by simpa using hk) hnone
    | some j0 =>
      simp only [hfind] at h
      by_cases hge : idxLast ≥ (j0 : Int)
      · rw [if_pos hge] at h; exact Except.noConfusion h
      · rw [if_neg hge] at h
        cases hrec : fillGo il ish ist rest (j0 : Int) with
        | error e => rw [hrec] at h; simp at h
        | ok r2 =>
          obtain ⟨s2, t2⟩ := r2
          rw [hrec] at h
          simp only [bind_ok_eq, ok_bind] at h
          injection h with h
          injection h with hsh hst
          subst hsh
          subst hst
          cases k with
          | zero => rw [List.getD_cons_zero, hfind] at hnone; exact Option.noConfusion hnone
          | succ k =>
            rw [List.getD_cons_succ] at hnone ⊢
            rw [List.getD_cons_succ]
            exact ih (j0 : Int) s2 t2 hrec k (by simpa using hk) hnone

/-- C6: with a caller-requested layout, export of a buffer raises an error
when some inferred axis of extent at least 2 is missing from the request;
every requested axis absent from the inferred layout is emitted with
extent 1 and stride 0; and an error is raised when the inferred axes do
not occur in the request in their original relative order. -/
theorem applyUserLayout_spec (il : List Char) (ish ist : List Int) (user : List Char) :
    ((∃ i < il.length, ish.getD i 0 ≥ 2 ∧ findIdx user (il.getD i ' ') = none) →
        applyUserLayout il ish ist user = .error "Layout need dimension")
  ∧ (∀ sh st, applyUserLayout il ish ist user = .ok (sh, st) →
        ∀ k < user.length, findIdx il (user.getD k ' ') = none →
          sh.getD k 0 = 1 ∧ st.getD k 0 = 0)
  ∧ (∀ k1 k2 j1 j2, k1 < k2 → k2 < user.length →
        findIdx il (user.getD k1 ' ') = some j1 →
        findIdx il (user.getD k2 ' ') = some j2 →
        ¬ j1 < j2 →
        ∃ e, applyUserLayout il ish ist user = .error e) := by
  refine ⟨?_, ?_, ?_⟩
  · rintro ⟨i, hi, h2, hnone⟩
    have hany : ((List.range il.length).any fun i =>
        decide (ish.getD i 0 ≥ 2 ∧ findIdx user (il.getD i ' ') = none)) = true := by
      rw [List.any_eq_true]
      refine ⟨i, List.mem_range.mpr hi, ?_⟩
      rw [decide_eq_true_eq]
      exact ⟨h2, hnone⟩
    simp only [applyUserLayout]
    rw [if_pos hany]
  · intro sh st h k hk hnone
    simp only [applyUserLayout] at h
    split at h
    · exact Except.noConfusion h
    · exact fillGo_unmatched il ish ist user (-1) sh st h k hk hnone
  · intro k1 k2 j1 j2 h12 hk2 hj1 hj2 hord
    cases h : applyUserLayout il ish ist user with
    | error e => exact ⟨e, rfl⟩
    | ok r =>
      obtain ⟨sh, st⟩ := r
      exfalso
      simp only [applyUserLayout] at h
      split at h
      · exact Except.noConfusion h
      · exact hord (fillGo_increasing il ish ist user (-1) (sh, st) h k1 k2 j1 j2 h12 hk2 hj1 hj2)

/-- Witness for C6 at concrete inputs: requesting layout `HW` of an `HWC`
buffer with a 3-channel extent errors; requesting `NHWC` synthesizes the
`N` axis with extent 1 and stride 0; and a request reversing `H` and `W`
errors. -/
theorem applyUserLayout_spec_witness :
    (applyUserLayout ['H', 'W', 'C'] [480, 640, 3] [1920, 3, 1] ['H', 'W']
        = .error "Layout need dimension")
  ∧ (∀ sh st, applyUserLayout ['H', 'W', 'C'] [480, 640, 3] [1920, 3, 1]
        ['N', 'H', 'W', 'C'] = .ok (sh, st) → sh.getD 0 0 = 1 ∧ st.getD 0 0 = 0)
  ∧ (∃ e, applyUserLayout ['H', 'W', 'C'] [480, 640, 3] [1920, 3, 1] ['W', 'H']
        = .error e) := by
  refine ⟨?_, ?_, ?_⟩
  · exact (applyUserLayout_spec ['H', 'W', 'C'] [480, 640, 3] [1920, 3, 1] ['H', 'W']).1
      ⟨2, by decide, by decide, by decide⟩
  · intro sh st h
    exact (applyUserLayout_spec ['H', 'W', 'C'] [480, 640, 3] [1920, 3, 1]
      ['N', 'H', 'W', 'C']).2.1 sh st h 0 (by decide) (by decide)
  · exact (applyUserLayout_spec ['H', 'W', 'C'] [480, 640, 3] [1920, 3, 1] ['W', 'H']).2.2
      0 1 1 0 (by decide) (by decide) (by decide) (by decide) (by decide)

/-- A default/empty exported buffer. -/
def noBuf : OutBuf := ⟨[], [], [], ⟨.unsigned, Packing.NONE⟩, 0⟩

/-- The per-plane conditions of the single-buffer decision loop, for the
planes after plane 0: same width, height and row stride as plane 0, plane
0's data type below 2 channels and equal to this plane's, and (from the
third plane on) the same base-pointer difference between consecutive
planes as between planes 0 and 1. -/
def coalesceCond (d : ImageData) : Prop :=
  ∀ p, 1 ≤ p → p < d.planes.length →
    (d.planes.getD p noPlane).width = (d.planes.getD 0 noPlane).width
    ∧ (d.planes.getD p noPlane).height = (d.planes.getD 0 noPlane).height
    ∧ (d.planes.getD p noPlane).rowStride = (d.planes.getD 0 noPlane).rowStride
    ∧ (d.format.planeDataType 0).numChannels < 2
    ∧ d.format.planeDataType 0 = d.format.planeDataType p
    ∧ (2 ≤ p →
        (d.planes.getD p noPlane).basePtr - (d.planes.getD (p - 1) noPlane).basePtr
          = (d.planes.getD 1 noPlane).basePtr - (d.planes.getD 0 noPlane).basePtr)

/-- The single-buffer decision holds exactly when every plane after the
first satisfies the loop's conditions. -/
theorem singleBufferOk_iff (d : ImageData) :
    singleBufferOk d = true ↔ coalesceCond d := by
  unfold singleBufferOk coalesceCond
  rw [List.all_eq_true]
  constructor
  · intro h p hp1 hpn
    have hx := h p (List.mem_range.mpr hpn)
    rw [if_neg (by omega), decide_eq_true_eq] at hx
    exact hx
  · intro h p hp
    rw [List.mem_range] at hp
    by_cases h0 : p = 0
    · rw [if_pos h0]
    · rw [if_neg h0, decide_eq_true_eq]
      exact h p (by omega) hp

/-- With no requested layout, the emission loop never fails and emits the
inferred buffer for every index. -/
theorem exportAll_none (d : ImageData) (nb : Nat) (ps : List Nat) :
    exportAll d nb none ps = .ok (ps.map (exportNoneBuf d nb)) := by
  induction ps with
  | nil => rfl
  | cons p ps ih => simp [exportAll, exportOne, ih]

/-- Counterexample to C5 as stated: a single-plane packed RGB8 image is
exported as ONE buffer although plane 0's data type has 3 (not fewer than
2) channels — the claimed iff-condition fails while a single buffer is
produced.  The loop conditions only bind planes after the first. -/
theorem singleBuffer_claim_counterexample :
    (∃ b, ToPyBufferInfo ⟨FMT_RGB8, [⟨640, 480, 1920, 0⟩]⟩ none = .ok [b])
  ∧ 2 ≤ (ImageFormat.planeDataType FMT_RGB8 0).numChannels :=
  ⟨⟨_, rfl⟩, by decide⟩

/-- C5 (amended): export with no requested layout produces a single buffer
iff the image has one plane or every plane after the first matches plane
0's geometry, plane 0's data type has fewer than 2 channels and equals
every plane's, and the inter-plane spacing is uniform; the single buffer's
layout is `HW` for a 1-channel format, `HWC` for a single multi-channel
plane and `CHW` otherwise; and in the multi-buffer case every buffer is
`HWC`-shaped. -/
theorem toPyBufferInfo_buffer_partition (d : ImageData) (hn : 1 ≤ d.planes.length) :
    ∃ outs, ToPyBufferInfo d none = .ok outs
      ∧ (outs.length = 1 ↔ (d.planes.length = 1 ∨ coalesceCond d))
      ∧ (singleBufferOk d = true →
          (outs.getD 0 noBuf).layout =
            (if d.format.numChannels = 1 then ['H', 'W']
             else if d.planes.length = 1 then ['H', 'W', 'C']
             else ['C', 'H', 'W']))
      ∧ (singleBufferOk d = false → ∀ b ∈ outs, b.layout = ['H', 'W', 'C']) := by
  have hlt : ¬ (d.planes.length < 1) := by omega
  have hone : d.planes.length = 1 → singleBufferOk d = true := by
    intro h
    unfold singleBufferOk
    rw [h]
    simp
  refine ⟨(List.range (if singleBufferOk d then 1 else d.planes.length)).map
      (exportNoneBuf d (if singleBufferOk d then 1 else d.planes.length)), ?_, ?_, ?_, ?_⟩
  · simp only [ToPyBufferInfo]
    rw [if_neg hlt]
    exact exportAll_none d _ _
  · rw [List.length_map, List.length_range]
    constructor
    · intro h1
      by_cases hsb : singleBufferOk d = true
      · exact Or.inr ((singleBufferOk_iff d).mp hsb)
      · rw [if_neg hsb] at h1
        exact Or.inl h1
    · intro h
      have hsb : singleBufferOk d = true := by
        rcases h with h | h
        · exact hone h
        · exact (singleBufferOk_iff d).mpr h
      rw [if_pos hsb]
  · intro hsb
    rw [if_pos hsb]
    have hr1 : List.range 1 = [0] := rfl
    simp only [hr1, List.map_cons, List.map_nil, List.getD_cons_zero]
    by_cases h1 : d.format.numChannels = 1
    · simp [exportNoneBuf, inferExport, h1]
    · by_cases hpl : d.planes.length = 1
      · simp [exportNoneBuf, inferExport, h1, hpl]
      · simp [exportNoneBuf, inferExport, h1, hpl]
  · intro hsb
    rw [if_neg (by simp [hsb])]
    intro b hb
    rw [List.mem_map] at hb
    obtain ⟨p, hp, hbp⟩ := hb
    have hn1 : d.planes.length ≠ 1 := fun h => by rw [hone h] at hsb; cases hsb
    rw [← hbp]
    simp [exportNoneBuf, inferExport, hn1]

/-- Witness for the amended C5: a concrete single-plane image exports as
exactly one buffer. -/
theorem toPyBufferInfo_buffer_partition_witness :
    ∃ outs, ToPyBufferInfo ⟨FMT_U8, [⟨4, 2, 4, 0⟩]⟩ none = .ok outs
      ∧ outs.length = 1 := by
  obtain ⟨outs, ho, hiff, -, -⟩ :=
    toPyBufferInfo_buffer_partition ⟨FMT_U8, [⟨4, 2, 4, 0⟩]⟩ (by decide)
  exact ⟨outs, ho, hiff.mpr (Or.inl rfl)⟩

/-- Witness for C1: a concrete 480×640×4 packed buffer with no declared
format is detected as channel-last. -/
theorem extract_layout_disambiguation_witness :
    ∃ b, extractOne ⟨3, [480, 640, 4], [2560, 4, 1], ⟨.unsigned, 8, 1⟩, 0, ⟨2, 0⟩⟩
           FMT_NONE 0 = .ok b
      ∧ b.isChannelLast = true := by
  refine ⟨_, rfl, ?_⟩
  rw [extract_layout_disambiguation
    ⟨3, [480, 640, 4], [2560, 4, 1], ⟨.unsigned, 8, 1⟩, 0, ⟨2, 0⟩⟩ FMT_NONE 0 _
    (Or.inl rfl) rfl]
  decide


/-- Standard packing: `c` channels of `bits` bits each, in standard channel
order and MSB byte order. -/
def stdPacking (c bits : Nat) : Packing :=
  ⟨(List.range 4).map (fun i => if i < c then bits else 0), stdSwizzle c, .msb, false⟩

/-- C9 (amended): for a single-plane image whose plane packing is standard
(1 to 4 channels of one byte-aligned width, standard swizzle, MSB byte
order) and whose rows are packed (row stride = width times the pixel
stride), exporting with no requested layout and re-ingesting the exported
descriptor with the image's own format as the declared format reproduces
exactly the same canonical image. -/
theorem roundTrip_single_plane (cmod : ColorModel) (cspec : ColorSpec) (css : Nat × Nat)
    (rp : Nat) (kind : DataKind) (sw : Swizzle) (c B : Nat) (w h rs base : Int)
    (dev : DLDevice)
    (hc1 : 1 ≤ c) (hc4 : c ≤ 4) (hB : 1 ≤ B) (hw : 1 ≤ w) (hh : 1 ≤ h)
    (hrow : rs = w * (c : Int) * (B : Int)) :
    roundTrip ⟨⟨cmod, cspec, css, kind, sw, pad4 [stdPacking c (8 * B)], rp⟩,
               [⟨w, h, rs, base⟩]⟩ dev
      = .ok ⟨⟨cmod, cspec, css, kind, sw, pad4 [stdPacking c (8 * B)], rp⟩,
             [⟨w, h, rs, base⟩]⟩ := by
  interval_cases c
  · push_cast at hrow
    set fmt : ImageFormat := ⟨cmod, cspec, css, kind, sw, pad4 [stdPacking 1 (8 * B)], rp⟩ with hfmt
    set d : ImageData := ⟨fmt, [⟨w, h, rs, base⟩]⟩ with hd
    have hB8 : 8 * B ≠ 0 := by omega
    have hBne : (B : Int) ≠ 0 := by
      have hBz : B ≠ 0 := by omega
      exact_mod_cast hBz
    have hB0 : (0 : Int) < (B : Int) := by omega
    have hw0 : (0 : Int) < w := by omega
    have hh0 : (0 : Int) < h := by omega
    have hrs0 : (0 : Int) < rs := by
      rw [hrow]
      have : (0 : Int) < w * 1 := by omega
      exact mul_pos this hB0
    have hrsdiv : rs / (B : Int) = w := by
      rw [hrow, mul_one]
      exact Int.mul_ediv_cancel w hBne
    have hr4 : List.range 4 = [0, 1, 2, 3] := rfl
    have hnum : fmt.numChannels = 1 := by
      simp [hfmt, ImageFormat.numChannels, pad4, stdPacking, Packing.numChannels, hr4,
        List.countP_cons, List.countP_nil, Packing.NONE, hB8]
    have hpdt : fmt.planeDataType 0 = ⟨kind, stdPacking 1 (8 * B)⟩ := rfl
    have hbpp : fmt.planeBPP 0 = (B : Int) := by
      simp [ImageFormat.planeBPP, hpdt, DataType.strideBytes, stdPacking, Packing.totalBits, hr4]
      omega
    -- Stage 1: export
    have hie : inferExport d 1 0 =
        ([h, w], [rs, (B : Int)], ['H', 'W'], ⟨kind, stdPacking 1 (8 * B)⟩) := by
      simp [inferExport, hnum, hbpp, hpdt, hd, noPlane]
    have h1 : ToPyBufferInfo d none = .ok [⟨[h, w], [rs, (B : Int)],
        ['H', 'W'], ⟨kind, stdPacking 1 (8 * B)⟩, base⟩] := by
      rw [show ToPyBufferInfo d none = .ok [exportNoneBuf d 1 0] from rfl]
      simp [exportNoneBuf, hie, hd, noPlane]
    -- Stage 2: back to a DLPack descriptor
    have h2 : toDLPack ⟨[h, w], [rs, (B : Int)], ['H', 'W'],
        ⟨kind, stdPacking 1 (8 * B)⟩, base⟩ dev
        = ⟨2, [h, w], [rs / (B : Int), 1], ⟨kind, 8 * B, 1⟩, base, dev⟩ := by
      have hcnt : (DataType.mk kind (stdPacking 1 (8 * B))).numChannels = 1 := by
        simp [DataType.numChannels, stdPacking, Packing.numChannels, hr4,
          List.countP_cons, List.countP_nil, hB8]
      have hg0 : (stdPacking 1 (8 * B)).bits.getD 0 0 = 8 * B := by
        simp [stdPacking, hr4]
      have hesb : (DLDataType.mk kind (8 * B) 1).elemStrideBytes = (B : Int) := by
        simp [DLDataType.elemStrideBytes]
        omega
      simp only [toDLPack, toDLDataType, hcnt, hg0, hesb]
      simp [Int.ediv_self hBne]
    -- Stage 3: re-ingestion
    have hton : ToNVCVDataType ⟨kind, 8 * B, 1⟩ = ⟨kind, stdPacking 1 (8 * B)⟩ := rfl
    have hex : extractOne ⟨2, [h, w], [rs / (B : Int), 1], ⟨kind, 8 * B, 1⟩, base, dev⟩ fmt 0
        = .ok ⟨1, (w, h), 1, false, h * (rs / (B : Int)) * (B : Int), rs,
               ⟨kind, stdPacking 1 (8 * B)⟩, base⟩ := by
      have hesb : (DLDataType.mk kind (8 * B) 1).elemStrideBytes = (B : Int) := by
        simp [DLDataType.elemStrideBytes]
        omega
      have hdm : rs / (B : Int) * (B : Int) = rs := by
        rw [hrsdiv, hrow, mul_one]
      unfold extractOne
      simp only [hesb]
      norm_num [TensorLayout4.isChannelLast]
      rw [hdm]
      rw [if_neg (by
            push_neg
            constructor
            · rw [hrsdiv]
              exact mul_pos (mul_pos hh0 hw0) hB0
            · exact hrs0),
          if_pos (by rw [hrow]; ring)]
      rw [hton]
    have hcnt : (DataType.mk kind (stdPacking 1 (8 * B))).numChannels = 1 := by
      simp [DataType.numChannels, stdPacking, Packing.numChannels, hr4,
        List.countP_cons, List.countP_nil, hB8]
    have hgo : ExtractBufferImageInfo
        [⟨2, [h, w], [rs / (B : Int), 1], ⟨kind, 8 * B, 1⟩, base, dev⟩] fmt
        = .ok [⟨1, (w, h), 1, false, h * (rs / (B : Int)) * (B : Int), rs,
               ⟨kind, stdPacking 1 (8 * B)⟩, base⟩] := by
      unfold ExtractBufferImageInfo extractGo
      rw [hex, ok_bind]
      norm_num [extractGo]
    have hmpt : MakePackedType ⟨kind, stdPacking 1 (8 * B)⟩ 1 = ⟨kind, stdPacking 1 (8 * B)⟩ := by
      unfold MakePackedType
      rw [if_pos hcnt]
    have hinf : InferImageFormat [⟨kind, stdPacking 1 (8 * B)⟩]
        = .ok ⟨.undefined, .undefined, (1, 1), kind, S_X000, pad4 [stdPacking 1 (8 * B)], 0⟩ := by
      simp [InferImageFormat, hcnt, FMT_U8]
    have hfne : fmt ≠ FMT_NONE := by
      intro hcon
      have hpk := congrArg ImageFormat.packings hcon
      simp [hfmt, FMT_NONE, pad4, stdPacking, Packing.NONE, hr4, hB8] at hpk
    have hlay : HasSameDataLayout fmt
        ⟨.undefined, .undefined, (1, 1), kind, S_X000, pad4 [stdPacking 1 (8 * B)], 0⟩ = true := by
      simp [HasSameDataLayout, hfmt]
    have hasm : assembleImage [⟨w, h, rs, base⟩] [⟨kind, stdPacking 1 (8 * B)⟩] fmt = .ok d := by
      unfold assembleImage
      rw [if_neg (by simp), hinf, bind_ok_eq, if_pos hfne,
        if_neg (fun hcon => hcon hlay), bind_ok_eq]
      rw [if_neg (by simp [ImageFormat.planeSize, noPlane])]
    have h3 : FillNVCVImageBufferStrided
        [⟨2, [h, w], [rs / (B : Int), 1], ⟨kind, 8 * B, 1⟩, base, dev⟩] fmt = .ok d := by
      unfold FillNVCVImageBufferStrided
      rw [hgo, ok_bind]
      simp only [List.map_cons, List.map_nil, List.flatten, expandBuf, bufPlaneTypes,
        List.range_succ, List.range_zero, List.append_nil, List.nil_append, List.replicate,
        Nat.cast_zero, mul_zero, add_zero, Bool.false_eq_true, if_false, hmpt]
      simpa using hasm
    unfold roundTrip
    rw [h1, ok_bind]
    simp only [List.map_cons, List.map_nil, h2]
    exact h3
  · push_cast at hrow
    set fmt : ImageFormat := ⟨cmod, cspec, css, kind, sw, pad4 [stdPacking 2 (8 * B)], rp⟩ with hfmt
    set d : ImageData := ⟨fmt, [⟨w, h, rs, base⟩]⟩ with hd
    have hB8 : 8 * B ≠ 0 := by omega
    have hBne : (B : Int) ≠ 0 := by
      have hBz : B ≠ 0 := by omega
      exact_mod_cast hBz
    have hB0 : (0 : Int) < (B : Int) := by omega
    have hw0 : (0 : Int) < w := by omega
    have hh0 : (0 : Int) < h := by omega
    have hrs0 : (0 : Int) < rs := by
      rw [hrow]
      have hw3 : (0 : Int) < w * 2 := by omega
      exact mul_pos hw3 hB0
    have hrsdiv : rs / (B : Int) = w * 2 := by
      rw [hrow]
      exact Int.mul_ediv_cancel _ hBne
    have hdm : rs / (B : Int) * (B : Int) = rs := by
      rw [hrsdiv, hrow]
    have hr4 : List.range 4 = [0, 1, 2, 3] := rfl
    have hnum : fmt.numChannels = 2 := by
      simp [hfmt, ImageFormat.numChannels, pad4, stdPacking, Packing.numChannels, hr4,
        List.countP_cons, List.countP_nil, Packing.NONE, hB8]
    have hnum1 : ¬ (fmt.numChannels = 1) := by rw [hnum]; omega
    have hpnc : fmt.planeNumChannels 0 = 2 := by
      simp [hfmt, ImageFormat.planeNumChannels, pad4, stdPacking, Packing.numChannels, hr4,
        List.countP_cons, List.countP_nil, hB8]
    have hpdt : fmt.planeDataType 0 = ⟨kind, stdPacking 2 (8 * B)⟩ := rfl
    have hct : (DataType.mk kind (stdPacking 2 (8 * B))).channelType0
        = ⟨kind, stdPacking 1 (8 * B)⟩ := rfl
    have hbpp : fmt.planeBPP 0 = (2 : Int) * (B : Int) := by
      simp [ImageFormat.planeBPP, hpdt, DataType.strideBytes, stdPacking, Packing.totalBits, hr4]
      push_cast
      omega
    have hsp : (fmt.planePacking 0).subPixel = false := rfl
    have hie : inferExport d 1 0 =
        ([h, w, 2], [rs, (2 : Int) * (B : Int), (B : Int)], ['H', 'W', 'C'],
         ⟨kind, stdPacking 1 (8 * B)⟩) := by
      simp only [inferExport, hnum1, if_false, hd]
      norm_num [hbpp, noPlane, hpnc, hct, hsp]
      rw [hpdt, hct]
    have h1 : ToPyBufferInfo d none = .ok [⟨[h, w, 2], [rs, (2 : Int) * (B : Int), (B : Int)],
        ['H', 'W', 'C'], ⟨kind, stdPacking 1 (8 * B)⟩, base⟩] := by
      rw [show ToPyBufferInfo d none = .ok [exportNoneBuf d 1 0] from rfl]
      simp [exportNoneBuf, hie, hd, noPlane]
    have hcnt1 : (DataType.mk kind (stdPacking 1 (8 * B))).numChannels = 1 := by
      simp [DataType.numChannels, stdPacking, Packing.numChannels, hr4,
        List.countP_cons, List.countP_nil, hB8]
    have hesb : (DLDataType.mk kind (8 * B) 1).elemStrideBytes = (B : Int) := by
      simp [DLDataType.elemStrideBytes]
      omega
    have h2 : toDLPack ⟨[h, w, 2], [rs, (2 : Int) * (B : Int), (B : Int)],
        ['H', 'W', 'C'], ⟨kind, stdPacking 1 (8 * B)⟩, base⟩ dev
        = ⟨3, [h, w, 2], [rs / (B : Int), 2, 1], ⟨kind, 8 * B, 1⟩, base, dev⟩ := by
      have hg0 : (stdPacking 1 (8 * B)).bits.getD 0 0 = 8 * B := by
        simp [stdPacking, hr4]
      simp only [toDLPack, toDLDataType, hcnt1, hg0, hesb]
      simp [Int.ediv_self hBne, Int.mul_ediv_cancel _ hBne]
    have hton : ToNVCVDataType ⟨kind, 8 * B, 1⟩ = ⟨kind, stdPacking 1 (8 * B)⟩ := rfl
    have hfne : fmt ≠ FMT_NONE := by
      intro hcon
      have hpk := congrArg ImageFormat.packings hcon
      simp [hfmt, FMT_NONE, pad4, stdPacking, Packing.NONE, hr4, hB8] at hpk
    have hcl : chooseLayout34 fmt 0 2 = .NHWC := by
      unfold chooseLayout34
      rw [if_pos hfne, if_pos (by rw [hpnc]; norm_num)]
    have hex : extractOne ⟨3, [h, w, 2], [rs / (B : Int), 2, 1], ⟨kind, 8 * B, 1⟩, base, dev⟩ fmt 0
        = .ok ⟨1, (w, h), 2, true, h * (rs / (B : Int) * (B : Int)), rs,
               ⟨kind, stdPacking 1 (8 * B)⟩, base⟩ := by
      unfold extractOne
      simp only [hesb]
      norm_num [hcl, TensorLayout4.isChannelLast]
      rw [hdm]
      rw [if_neg (by
            push_neg
            refine ⟨?_, ?_, ?_⟩
            · exact mul_pos hh0 hrs0
            · exact hrs0
            · exact mul_pos (by omega) hB0)]
      rw [hton]
      norm_num
      rfl
    have hgo : ExtractBufferImageInfo
        [⟨3, [h, w, 2], [rs / (B : Int), 2, 1], ⟨kind, 8 * B, 1⟩, base, dev⟩] fmt
        = .ok [⟨1, (w, h), 2, true, h * (rs / (B : Int) * (B : Int)), rs,
               ⟨kind, stdPacking 1 (8 * B)⟩, base⟩] := by
      unfold ExtractBufferImageInfo extractGo
      rw [hex, ok_bind]
      norm_num [extractGo]
    have hmpt : MakePackedType ⟨kind, stdPacking 1 (8 * B)⟩ 2 = ⟨kind, stdPacking 2 (8 * B)⟩ := by
      unfold MakePackedType
      rw [if_neg (by rw [hcnt1]; omega)]
      simp [stdPacking, hr4, stdSwizzle]
    have hcntC : (DataType.mk kind (stdPacking 2 (8 * B))).numChannels = 2 := by
      simp [DataType.numChannels, stdPacking, Packing.numChannels, hr4,
        List.countP_cons, List.countP_nil, hB8]
    have hinf : InferImageFormat [⟨kind, stdPacking 2 (8 * B)⟩]
        = .ok ⟨.undefined, .undefined, (1, 1), kind, S_XY00, pad4 [stdPacking 2 (8 * B)], 0⟩ := by
      simp [InferImageFormat, hcntC, FMT_2F32]
    have hlay : HasSameDataLayout fmt
        ⟨.undefined, .undefined, (1, 1), kind, S_XY00, pad4 [stdPacking 2 (8 * B)], 0⟩ = true := by
      simp [HasSameDataLayout, hfmt]
    have hasm : assembleImage [⟨w, h, rs, base⟩] [⟨kind, stdPacking 2 (8 * B)⟩] fmt = .ok d := by
      unfold assembleImage
      rw [if_neg (by simp), hinf, bind_ok_eq, if_pos hfne,
        if_neg (fun hcon => hcon hlay), bind_ok_eq]
      rw [if_neg (by simp [ImageFormat.planeSize, noPlane])]
    have h3 : FillNVCVImageBufferStrided
        [⟨3, [h, w, 2], [rs / (B : Int), 2, 1], ⟨kind, 8 * B, 1⟩, base, dev⟩] fmt = .ok d := by
      unfold FillNVCVImageBufferStrided
      rw [hgo, ok_bind]
      simp only [List.map_cons, List.map_nil, List.flatten, expandBuf, bufPlaneTypes,
        List.range_succ, List.range_zero, List.append_nil, List.nil_append, List.replicate,
        Nat.cast_zero, mul_zero, add_zero, if_true, hmpt]
      simpa using hasm
    unfold roundTrip
    rw [h1, ok_bind]
    simp only [List.map_cons, List.map_nil, h2]
    exact h3
  · push_cast at hrow
    set fmt : ImageFormat := ⟨cmod, cspec, css, kind, sw, pad4 [stdPacking 3 (8 * B)], rp⟩ with hfmt
    set d : ImageData := ⟨fmt, [⟨w, h, rs, base⟩]⟩ with hd
    have hB8 : 8 * B ≠ 0 := by omega
    have hBne : (B : Int) ≠ 0 := by
      have hBz : B ≠ 0 := by omega
      exact_mod_cast hBz
    have hB0 : (0 : Int) < (B : Int) := by omega
    have hw0 : (0 : Int) < w := by omega
    have hh0 : (0 : Int) < h := by omega
    have hrs0 : (0 : Int) < rs := by
      rw [hrow]
      have hw3 : (0 : Int) < w * 3 := by omega
      exact mul_pos hw3 hB0
    have hrsdiv : rs / (B : Int) = w * 3 := by
      rw [hrow]
      exact Int.mul_ediv_cancel _ hBne
    have hdm : rs / (B : Int) * (B : Int) = rs := by
      rw [hrsdiv, hrow]
    have hr4 : List.range 4 = [0, 1, 2, 3] := rfl
    have hnum : fmt.numChannels = 3 := by
      simp [hfmt, ImageFormat.numChannels, pad4, stdPacking, Packing.numChannels, hr4,
        List.countP_cons, List.countP_nil, Packing.NONE, hB8]
    have hnum1 : ¬ (fmt.numChannels = 1) := by rw [hnum]; omega
    have hpnc : fmt.planeNumChannels 0 = 3 := by
      simp [hfmt, ImageFormat.planeNumChannels, pad4, stdPacking, Packing.numChannels, hr4,
        List.countP_cons, List.countP_nil, hB8]
    have hpdt : fmt.planeDataType 0 = ⟨kind, stdPacking 3 (8 * B)⟩ := rfl
    have hct : (DataType.mk kind (stdPacking 3 (8 * B))).channelType0
        = ⟨kind, stdPacking 1 (8 * B)⟩ := rfl
    have hbpp : fmt.planeBPP 0 = (3 : Int) * (B : Int) := by
      simp [ImageFormat.planeBPP, hpdt, DataType.strideBytes, stdPacking, Packing.totalBits, hr4]
      push_cast
      omega
    have hsp : (fmt.planePacking 0).subPixel = false := rfl
    have hie : inferExport d 1 0 =
        ([h, w, 3], [rs, (3 : Int) * (B : Int), (B : Int)], ['H', 'W', 'C'],
         ⟨kind, stdPacking 1 (8 * B)⟩) := by
      simp only [inferExport, hnum1, if_false, hd]
      norm_num [hbpp, noPlane, hpnc, hct, hsp]
      rw [hpdt, hct]
    have h1 : ToPyBufferInfo d none = .ok [⟨[h, w, 3], [rs, (3 : Int) * (B : Int), (B : Int)],
        ['H', 'W', 'C'], ⟨kind, stdPacking 1 (8 * B)⟩, base⟩] := by
      rw [show ToPyBufferInfo d none = .ok [exportNoneBuf d 1 0] from rfl]
      simp [exportNoneBuf, hie, hd, noPlane]
    have hcnt1 : (DataType.mk kind (stdPacking 1 (8 * B))).numChannels = 1 := by
      simp [DataType.numChannels, stdPacking, Packing.numChannels, hr4,
        List.countP_cons, List.countP_nil, hB8]
    have hesb : (DLDataType.mk kind (8 * B) 1).elemStrideBytes = (B : Int) := by
      simp [DLDataType.elemStrideBytes]
      omega
    have h2 : toDLPack ⟨[h, w, 3], [rs, (3 : Int) * (B : Int), (B : Int)],
        ['H', 'W', 'C'], ⟨kind, stdPacking 1 (8 * B)⟩, base⟩ dev
        = ⟨3, [h, w, 3], [rs / (B : Int), 3, 1], ⟨kind, 8 * B, 1⟩, base, dev⟩ := by
      have hg0 : (stdPacking 1 (8 * B)).bits.getD 0 0 = 8 * B := by
        simp [stdPacking, hr4]
      simp only [toDLPack, toDLDataType, hcnt1, hg0, hesb]
      simp [Int.ediv_self hBne, Int.mul_ediv_cancel _ hBne]
    have hton : ToNVCVDataType ⟨kind, 8 * B, 1⟩ = ⟨kind, stdPacking 1 (8 * B)⟩ := rfl
    have hfne : fmt ≠ FMT_NONE := by
      intro hcon
      have hpk := congrArg ImageFormat.packings hcon
      simp [hfmt, FMT_NONE, pad4, stdPacking, Packing.NONE, hr4, hB8] at hpk
    have hcl : chooseLayout34 fmt 0 3 = .NHWC := by
      unfold chooseLayout34
      rw [if_pos hfne, if_pos (by rw [hpnc]; norm_num)]
    have hex : extractOne ⟨3, [h, w, 3], [rs / (B : Int), 3, 1], ⟨kind, 8 * B, 1⟩, base, dev⟩ fmt 0
        = .ok ⟨1, (w, h), 3, true, h * (rs / (B : Int) * (B : Int)), rs,
               ⟨kind, stdPacking 1 (8 * B)⟩, base⟩ := by
      unfold extractOne
      simp only [hesb]
      norm_num [hcl, TensorLayout4.isChannelLast]
      rw [hdm]
      rw [if_neg (by
            push_neg
            refine ⟨?_, ?_, ?_⟩
            · exact mul_pos hh0 hrs0
            · exact hrs0
            · exact mul_pos (by omega) hB0)]
      rw [hton]
      norm_num
      rfl
    have hgo : ExtractBufferImageInfo
        [⟨3, [h, w, 3], [rs / (B : Int), 3, 1], ⟨kind, 8 * B, 1⟩, base, dev⟩] fmt
        = .ok [⟨1, (w, h), 3, true, h * (rs / (B : Int) * (B : Int)), rs,
               ⟨kind, stdPacking 1 (8 * B)⟩, base⟩] := by
      unfold ExtractBufferImageInfo extractGo
      rw [hex, ok_bind]
      norm_num [extractGo]
    have hmpt : MakePackedType ⟨kind, stdPacking 1 (8 * B)⟩ 3 = ⟨kind, stdPacking 3 (8 * B)⟩ := by
      unfold MakePackedType
      rw [if_neg (by rw [hcnt1]; omega)]
      simp [stdPacking, hr4, stdSwizzle]
    have hcntC : (DataType.mk kind (stdPacking 3 (8 * B))).numChannels = 3 := by
      simp [DataType.numChannels, stdPacking, Packing.numChannels, hr4,
        List.countP_cons, List.countP_nil, hB8]
    have hinf : InferImageFormat [⟨kind, stdPacking 3 (8 * B)⟩]
        = .ok ⟨.rgb, .srgb, (1, 1), kind, S_XYZ1, pad4 [stdPacking 3 (8 * B)], 0⟩ := by
      simp [InferImageFormat, hcntC, FMT_RGB8]
    have hlay : HasSameDataLayout fmt
        ⟨.rgb, .srgb, (1, 1), kind, S_XYZ1, pad4 [stdPacking 3 (8 * B)], 0⟩ = true := by
      simp [HasSameDataLayout, hfmt]
    have hasm : assembleImage [⟨w, h, rs, base⟩] [⟨kind, stdPacking 3 (8 * B)⟩] fmt = .ok d := by
      unfold assembleImage
      rw [if_neg (by simp), hinf, bind_ok_eq, if_pos hfne,
        if_neg (fun hcon => hcon hlay), bind_ok_eq]
      rw [if_neg (by simp [ImageFormat.planeSize, noPlane])]
    have h3 : FillNVCVImageBufferStrided
        [⟨3, [h, w, 3], [rs / (B : Int), 3, 1], ⟨kind, 8 * B, 1⟩, base, dev⟩] fmt = .ok d := by
      unfold FillNVCVImageBufferStrided
      rw [hgo, ok_bind]
      simp only [List.map_cons, List.map_nil, List.flatten, expandBuf, bufPlaneTypes,
        List.range_succ, List.range_zero, List.append_nil, List.nil_append, List.replicate,
        Nat.cast_zero, mul_zero, add_zero, if_true, hmpt]
      simpa using hasm
    unfold roundTrip
    rw [h1, ok_bind]
    simp only [List.map_cons, List.map_nil, h2]
    exact h3
  · push_cast at hrow
    set fmt : ImageFormat := ⟨cmod, cspec, css, kind, sw, pad4 [stdPacking 4 (8 * B)], rp⟩ with hfmt
    set d : ImageData := ⟨fmt, [⟨w, h, rs, base⟩]⟩ with hd
    have hB8 : 8 * B ≠ 0 := by omega
    have hBne : (B : Int) ≠ 0 := by
      have hBz : B ≠ 0 := by omega
      exact_mod_cast hBz
    have hB0 : (0 : Int) < (B : Int) := by omega
    have hw0 : (0 : Int) < w := by omega
    have hh0 : (0 : Int) < h := by omega
    have hrs0 : (0 : Int) < rs := by
      rw [hrow]
      have hw3 : (0 : Int) < w * 4 := by omega
      exact mul_pos hw3 hB0
    have hrsdiv : rs / (B : Int) = w * 4 := by
      rw [hrow]
      exact Int.mul_ediv_cancel _ hBne
    have hdm : rs / (B : Int) * (B : Int) = rs := by
      rw [hrsdiv, hrow]
    have hr4 : List.range 4 = [0, 1, 2, 3] := rfl
    have hnum : fmt.numChannels = 4 := by
      simp [hfmt, ImageFormat.numChannels, pad4, stdPacking, Packing.numChannels, hr4,
        List.countP_cons, List.countP_nil, Packing.NONE, hB8]
    have hnum1 : ¬ (fmt.numChannels = 1) := by rw [hnum]; omega
    have hpnc : fmt.planeNumChannels 0 = 4 := by
      simp [hfmt, ImageFormat.planeNumChannels, pad4, stdPacking, Packing.numChannels, hr4,
        List.countP_cons, List.countP_nil, hB8]
    have hpdt : fmt.planeDataType 0 = ⟨kind, stdPacking 4 (8 * B)⟩ := rfl
    have hct : (DataType.mk kind (stdPacking 4 (8 * B))).channelType0
        = ⟨kind, stdPacking 1 (8 * B)⟩ := rfl
    have hbpp : fmt.planeBPP 0 = (4 : Int) * (B : Int) := by
      simp [ImageFormat.planeBPP, hpdt, DataType.strideBytes, stdPacking, Packing.totalBits, hr4]
      push_cast
      omega
    have hsp : (fmt.planePacking 0).subPixel = false := rfl
    have hie : inferExport d 1 0 =
        ([h, w, 4], [rs, (4 : Int) * (B : Int), (B : Int)], ['H', 'W', 'C'],
         ⟨kind, stdPacking 1 (8 * B)⟩) := by
      simp only [inferExport, hnum1, if_false, hd]
      norm_num [hbpp, noPlane, hpnc, hct, hsp]
      rw [hpdt, hct]
    have h1 : ToPyBufferInfo d none = .ok [⟨[h, w, 4], [rs, (4 : Int) * (B : Int), (B : Int)],
        ['H', 'W', 'C'], ⟨kind, stdPacking 1 (8 * B)⟩, base⟩] := by
      rw [show ToPyBufferInfo d none = .ok [exportNoneBuf d 1 0] from rfl]
      simp [exportNoneBuf, hie, hd, noPlane]
    have hcnt1 : (DataType.mk kind (stdPacking 1 (8 * B))).numChannels = 1 := by
      simp [DataType.numChannels, stdPacking, Packing.numChannels, hr4,
        List.countP_cons, List.countP_nil, hB8]
    have hesb : (DLDataType.mk kind (8 * B) 1).elemStrideBytes = (B : Int) := by
      simp [DLDataType.elemStrideBytes]
      omega
    have h2 : toDLPack ⟨[h, w, 4], [rs, (4 : Int) * (B : Int), (B : Int)],
        ['H', 'W', 'C'], ⟨kind, stdPacking 1 (8 * B)⟩, base⟩ dev
        = ⟨3, [h, w, 4], [rs / (B : Int), 4, 1], ⟨kind, 8 * B, 1⟩, base, dev⟩ := by
      have hg0 : (stdPacking 1 (8 * B)).bits.getD 0 0 = 8 * B := by
        simp [stdPacking, hr4]
      simp only [toDLPack, toDLDataType, hcnt1, hg0, hesb]
      simp [Int.ediv_self hBne, Int.mul_ediv_cancel _ hBne]
    have hton : ToNVCVDataType ⟨kind, 8 * B, 1⟩ = ⟨kind, stdPacking 1 (8 * B)⟩ := rfl
    have hfne : fmt ≠ FMT_NONE := by
      intro hcon
      have hpk := congrArg ImageFormat.packings hcon
      simp [hfmt, FMT_NONE, pad4, stdPacking, Packing.NONE, hr4, hB8] at hpk
    have hcl : chooseLayout34 fmt 0 4 = .NHWC := by
      unfold chooseLayout34
      rw [if_pos hfne, if_pos (by rw [hpnc]; norm_num)]
    have hex : extractOne ⟨3, [h, w, 4], [rs / (B : Int), 4, 1], ⟨kind, 8 * B, 1⟩, base, dev⟩ fmt 0
        = .ok ⟨1, (w, h), 4, true, h * (rs / (B : Int) * (B : Int)), rs,
               ⟨kind, stdPacking 1 (8 * B)⟩, base⟩ := by
      unfold extractOne
      simp only [hesb]
      norm_num [hcl, TensorLayout4.isChannelLast]
      rw [hdm]
      rw [if_neg (by
            push_neg
            refine ⟨?_, ?_, ?_⟩
            · exact mul_pos hh0 hrs0
            · exact hrs0
            · exact mul_pos (by omega) hB0)]
      rw [hton]
      norm_num
      rfl
    have hgo : ExtractBufferImageInfo
        [⟨3, [h, w, 4], [rs / (B : Int), 4, 1], ⟨kind, 8 * B, 1⟩, base, dev⟩] fmt
        = .ok [⟨1, (w, h), 4, true, h * (rs / (B : Int) * (B : Int)), rs,
               ⟨kind, stdPacking 1 (8 * B)⟩, base⟩] := by
      unfold ExtractBufferImageInfo extractGo
      rw [hex, ok_bind]
      norm_num [extractGo]
    have hmpt : MakePackedType ⟨kind, stdPacking 1 (8 * B)⟩ 4 = ⟨kind, stdPacking 4 (8 * B)⟩ := by
      unfold MakePackedType
      rw [if_neg (by rw [hcnt1]; omega)]
      simp [stdPacking, hr4, stdSwizzle]
    have hcntC : (DataType.mk kind (stdPacking 4 (8 * B))).numChannels = 4 := by
      simp [DataType.numChannels, stdPacking, Packing.numChannels, hr4,
        List.countP_cons, List.countP_nil, hB8]
    have hinf : InferImageFormat [⟨kind, stdPacking 4 (8 * B)⟩]
        = .ok ⟨.rgb, .srgb, (1, 1), kind, S_XYZW, pad4 [stdPacking 4 (8 * B)], 0⟩ := by
      simp [InferImageFormat, hcntC, FMT_RGBA8]
    have hlay : HasSameDataLayout fmt
        ⟨.rgb, .srgb, (1, 1), kind, S_XYZW, pad4 [stdPacking 4 (8 * B)], 0⟩ = true := by
      simp [HasSameDataLayout, hfmt]
    have hasm : assembleImage [⟨w, h, rs, base⟩] [⟨kind, stdPacking 4 (8 * B)⟩] fmt = .ok d := by
      unfold assembleImage
      rw [if_neg (by simp), hinf, bind_ok_eq, if_pos hfne,
        if_neg (fun hcon => hcon hlay), bind_ok_eq]
      rw [if_neg (by simp [ImageFormat.planeSize, noPlane])]
    have h3 : FillNVCVImageBufferStrided
        [⟨3, [h, w, 4], [rs / (B : Int), 4, 1], ⟨kind, 8 * B, 1⟩, base, dev⟩] fmt = .ok d := by
      unfold FillNVCVImageBufferStrided
      rw [hgo, ok_bind]
      simp only [List.map_cons, List.map_nil, List.flatten, expandBuf, bufPlaneTypes,
        List.range_succ, List.range_zero, List.append_nil, List.nil_append, List.replicate,
        Nat.cast_zero, mul_zero, add_zero, if_true, hmpt]
      simpa using hasm
    unfold roundTrip
    rw [h1, ok_bind]
    simp only [List.map_cons, List.map_nil, h2]
    exact h3

/-- Counterexample to C9 as stated: a single-channel image with padded rows
(row stride 8 for a width-4 single-byte plane) exports successfully as an
`HW` buffer, but re-ingesting the exported descriptor with the image's own
declared format throws: the rank-2 ingestion path is channel-first and
rejects any row padding.  The round trip therefore fails to reconstruct
the image. -/
theorem roundTrip_counterexample :
    (∃ outs, ToPyBufferInfo ⟨FMT_U8, [⟨4, 2, 8, 0⟩]⟩ none = .ok outs)
  ∧ roundTrip ⟨FMT_U8, [⟨4, 2, 8, 0⟩]⟩ ⟨2, 0⟩ = .error "Image row must packed" :=
  ⟨⟨_, rfl⟩, rfl⟩

/-- Witness for the amended C9 at a concrete image: a 4×2 packed 3-channel
8-bit single-plane image with packed rows round-trips to itself. -/
theorem roundTrip_single_plane_witness :
    roundTrip ⟨⟨.rgb, .srgb, (1, 1), .unsigned, S_XYZ1, pad4 [stdPacking 3 (8 * 1)], 0⟩,
               [⟨4, 2, 12, 100⟩]⟩ ⟨2, 0⟩
      = .ok ⟨⟨.rgb, .srgb, (1, 1), .unsigned, S_XYZ1, pad4 [stdPacking 3 (8 * 1)], 0⟩,
             [⟨4, 2, 12, 100⟩]⟩ :=
  roundTrip_single_plane .rgb .srgb (1, 1) 0 .unsigned S_XYZ1 3 1 4 2 12 100 ⟨2, 0⟩
    (by decide) (by decide) (by decide) (by decide) (by decide) (by decide)

end CVCUDA
